import Mathlib

/-!
Verification development for the TALE language engine (`tale_engine.py`).

The engine is embedded shallowly: Python strings are modelled as `List Char`,
Python exceptions as `Except` error values, and the interpreter state of the
translator loop as an explicit structure.  Machine behaviour of the host
Python runtime (the `re`, `shlex` and `ast` standard-library modules) is
modelled by executable Lean functions whose behaviour on the inputs exercised
here agrees with the host; each such function documents the modelling choice.
All character classes are modelled over ASCII, matching the engine's intended
input alphabet.
-/

set_option maxRecDepth 40000

namespace Tale

/-- Python strings are modelled as lists of characters. -/
abbrev Str := List Char

instance {ε α : Type} [DecidableEq ε] [DecidableEq α] : DecidableEq (Except ε α) := fun x y =>
  match x, y with
  | .ok a, .ok b =>
    if h : a = b then isTrue (by rw [h]) else isFalse (by simp [h])
  | .error a, .error b =>
    if h : a = b then isTrue (by rw [h]) else isFalse (by simp [h])
  | .ok _, .error _ => isFalse (by simp)
  | .error _, .ok _ => isFalse (by simp)

/-- The single-quote character, used when emitting Python source text. -/
def sq : Char := '\''

/-- Model of the Python whitespace class `\s` / `str.strip()` (ASCII part). -/
def isPyWs (c : Char) : Bool :=
  c = ' ' ∨ c = '\t' ∨ c = '\n' ∨ c = '\r' ∨ c = Char.ofNat 11 ∨ c = Char.ofNat 12

/-- Model of the regex class `\w` (ASCII part): letters, digits, underscore. -/
def isWordChar (c : Char) : Bool := c.isAlpha ∨ c.isDigit ∨ c = '_'

/-- Model of the regex class `[A-Za-z_]`. -/
def isIdentStart (c : Char) : Bool := c.isAlpha ∨ c = '_'

/-- Python `str.strip()` (strip whitespace on both ends). -/
def pyStrip (l : Str) : Str :=
  ((l.dropWhile isPyWs).reverse.dropWhile isPyWs).reverse

/-- Python `str.lower()` restricted to ASCII letters. -/
def toLowerCh (c : Char) : Char :=
  if 'A' ≤ c ∧ c ≤ 'Z' then Char.ofNat (c.toNat + 32) else c

/-- Python `str.lower()` on a whole string. -/
def pyLower (l : Str) : Str := l.map toLowerCh

/-- Python substring membership `pat in s` (for nonempty `pat`). -/
def isSubstr (pat : Str) : Str → Bool
  | [] => pat.isPrefixOf []
  | c :: rest => pat.isPrefixOf (c :: rest) || isSubstr pat rest

/-- Python `s.split(sep, 1)` when it finds the separator: the text before the
first occurrence of `sep` and the text after it. -/
def splitOnce (sep : Str) : Str → Option (Str × Str)
  | [] => if sep.isPrefixOf ([] : Str) then some ([], []) else none
  | c :: rest =>
    if sep.isPrefixOf (c :: rest) then some ([], (c :: rest).drop sep.length)
    else match splitOnce sep rest with
      | some (a, b) => some (c :: a, b)
      | none => none

/-- Python `str.split()` with no arguments: split on whitespace runs,
discarding empty pieces. -/
def wsSplit (l : Str) : List Str :=
  go l []
where
  go : Str → Str → List Str
    | [], cur => if cur = [] then [] else [cur.reverse]
    | c :: rest, cur =>
      if isPyWs c then
        (if cur = [] then id else (cur.reverse :: ·)) (go rest [])
      else go rest (c :: cur)

/-- Python `str.split(None, 1)`: first whitespace-separated token, then the
remainder with its leading whitespace removed. -/
def wsSplitOnce (l : Str) : List Str :=
  let l' := l.dropWhile isPyWs
  if l' = [] then []
  else
    let tok := l'.takeWhile (fun c => ¬ isPyWs c)
    let rest := (l'.drop tok.length).dropWhile isPyWs
    if rest = [] then [tok] else [tok, rest]

/-- Python `str.replace(old, new)`: non-overlapping left-to-right replacement.
The fuel argument is the length of the input, consumed one character per
step, so the function is structurally recursive and fully evaluable. -/
def replaceAllF (old new : Str) : Nat → Str → Str
  | 0, l => l
  | _ + 1, [] => []
  | f + 1, c :: rest =>
    if old ≠ [] ∧ old.isPrefixOf (c :: rest) then
      new ++ replaceAllF old new f ((c :: rest).drop old.length)
    else c :: replaceAllF old new f rest

/-- Python `str.replace(old, new)`. -/
def pyReplace (old new : Str) (l : Str) : Str := replaceAllF old new (l.length + 1) l

/-- Python `", ".join(parts)`-style joining. -/
def joinWith (sep : Str) (parts : List Str) : Str := List.intercalate sep parts

/-- Python `str.splitlines()` restricted to `\n` separators: a trailing
newline produces no extra empty line, and the empty string has no lines. -/
def splitLines (l : Str) : List Str :=
  if l = [] then [] else go l []
where
  go : Str → Str → List Str
    | [], cur => [cur.reverse]
    | c :: rest, cur =>
      if c = '\n' then
        if rest = [] then [cur.reverse] else cur.reverse :: go rest []
      else go rest (c :: cur)

/-- Decimal rendering of a natural number, for `f"Line {line_no}: ..."`. -/
def natToStr (n : Nat) : Str := Nat.toDigits 10 n

/-- The regex `^[A-Za-z_][\w]*$` used by `_validate_name`, `ask`, `call`
and the call shorthand. -/
def isIdentStr (l : Str) : Bool :=
  match l with
  | [] => false
  | c :: rest => isIdentStart c ∧ rest.all isWordChar

/- ### The input tape (`TaleInterpreter.input_provider`) -/

/-- A value delivered by the input provider.  Integer inputs are parsed;
float-shaped inputs are tagged with their raw text (the engine calls the
host `float()` on them, which cannot fail on regex-matched text); everything
else is delivered as the raw string. -/
inductive TaleValue where
  | intV (n : Int)
  | floatV (raw : Str)
  | strV (raw : Str)
deriving Repr, DecidableEq

/-- The `InputExhausted` failure, carrying its message. -/
inductive InputErr where
  | exhausted (msg : Str)
deriving Repr, DecidableEq

/-- The message of the `InputExhausted` exception raised by the engine. -/
def inputExhaustedMsg : Str :=
  "No more inputs were supplied. Add values in the Inputs box (one per line).".toList

/-- Strip the optional `[+-]?` sign of the numeric-literal regexes. -/
def dropSign : Str → Str
  | c :: rest => if c = '+' ∨ c = '-' then rest else c :: rest
  | [] => []

/-- Matcher for the regex `[+-]?\d+` under `re.fullmatch` (ASCII digits). -/
def matchIntLit (l : Str) : Bool :=
  dropSign l ≠ [] ∧ (dropSign l).all Char.isDigit

/-- The unsigned part `\d+\.\d*|\d*\.\d+` of the float regex: a maximal
digit run, then a dot, then digits, with at least one digit overall. -/
def floatBodyOk (body : Str) : Bool :=
  match body.drop (body.takeWhile Char.isDigit).length with
  | d :: b =>
    d = '.' ∧ b.all Char.isDigit ∧ (body.takeWhile Char.isDigit ≠ [] ∨ b ≠ [])
  | [] => false

/-- Matcher for the regex `[+-]?(\d+\.\d*|\d*\.\d+)` under `re.fullmatch`. -/
def matchFloatLit (l : Str) : Bool :=
  floatBodyOk (dropSign l)

/-- Value of Python `int(s)` on a string matching `[+-]?\d+`. -/
def parseIntLit (l : Str) : Int :=
  match l with
  | '-' :: rest => - (natOfDigits rest)
  | '+' :: rest => (natOfDigits rest : Int)
  | _ => (natOfDigits l : Int)
where
  natOfDigits (ds : Str) : Nat := ds.foldl (fun acc c => 10 * acc + (c.toNat - '0'.toNat)) 0

/-- `TaleInterpreter.input_provider`, modelled as a pure function of the
input tape and the current cursor position (the Python method consumes the
tape left to right; `idx` is the number of values already consumed). -/
def input_provider (inputs : List Str) (idx : Nat) : Except InputErr TaleValue :=
  if h : idx < inputs.length then
    let value := inputs.get ⟨idx, h⟩
    if matchIntLit value then .ok (.intV (parseIntLit value))
    else if matchFloatLit value then .ok (.floatV value)
    else .ok (.strV value)
  else .error (.exhausted inputExhaustedMsg)

/- Declarative characterisations of the two input regexes, used to state the
input-typing claim independently of the scanning functions above. -/

/-- Declarative reading of `[+-]?\d+`: an optional sign followed by a
nonempty block of digits. -/
def IntShape (l : Str) : Prop :=
  ∃ sign ds, (sign = ([] : Str) ∨ sign = ['+'] ∨ sign = ['-']) ∧
    ds ≠ ([] : Str) ∧ (∀ c ∈ ds, Char.isDigit c) ∧ l = sign ++ ds

/-- Declarative reading of `[+-]?(\d+\.\d*|\d*\.\d+)`: an optional sign,
then digits, a dot and digits, with at least one digit overall. -/
def FloatShape (l : Str) : Prop :=
  ∃ sign a b, (sign = ([] : Str) ∨ sign = ['+'] ∨ sign = ['-']) ∧
    (∀ c ∈ a, Char.isDigit c) ∧ (∀ c ∈ b, Char.isDigit c) ∧
    (a ≠ ([] : Str) ∨ b ≠ ([] : Str)) ∧ l = sign ++ a ++ '.' :: b

/- ### Argument splitters (`_split_args`, `_split_concat_args`) -/

/-- `TaleInterpreter._split_args`: split on commas outside simple quoted
regions.  The quote flag toggles on `"` or `'` matching the opening quote;
the final piece is appended only when nonempty, exactly as in the source. -/
def split_args (l : Str) : List Str :=
  go l [] false ' '
where
  go : Str → Str → Bool → Char → List Str
    | [], cur, _, _ => if cur = [] then [] else [cur.reverse]
    | c :: rest, cur, inStr, q =>
      let (inStr', q') :=
        if c = '"' ∨ c = '\'' then
          if inStr ∧ c = q then (false, q)
          else if ¬ inStr then (true, c)
          else (inStr, q)
        else (inStr, q)
      if c = ',' ∧ ¬ inStr' then cur.reverse :: go rest [] inStr' q'
      else go rest (c :: cur) inStr' q'

/-- `TaleInterpreter._split_concat_args`: split on `+` outside quotes and
outside brackets (bracket depth clamped at zero, as in the source). -/
def split_concat_args (l : Str) : List Str :=
  go l [] false ' ' 0
where
  go : Str → Str → Bool → Char → Nat → List Str
    | [], cur, _, _, _ => if cur = [] then [] else [cur.reverse]
    | c :: rest, cur, inStr, q, depth =>
      let (inStr', q') :=
        if c = '"' ∨ c = '\'' then
          if inStr ∧ c = q then (false, q)
          else if ¬ inStr then (true, c)
          else (inStr, q)
        else (inStr, q)
      let depth' :=
        if c = '"' ∨ c = '\'' then depth
        else if ¬ inStr' ∧ (c = '(' ∨ c = '[' ∨ c = Char.ofNat 123) then depth + 1
        else if ¬ inStr' ∧ (c = ')' ∨ c = ']' ∨ c = Char.ofNat 125) then depth - 1
        else depth
      if c = '+' ∧ ¬ inStr' ∧ depth' = 0 then cur.reverse :: go rest [] inStr' q' depth'
      else go rest (c :: cur) inStr' q' depth'

/-- `TaleInterpreter._looks_like_string`. -/
def looks_like_string (l : Str) : Bool :=
  let t := pyStrip l
  if 3 ≤ t.length ∧ List.isPrefixOf ['"', '"', '"'] t then
    List.isSuffixOf ['"', '"', '"'] t
  else if 2 ≤ t.length ∧ t.head? = t.getLast? ∧ (t.head? = some '"' ∨ t.head? = some '\'') then
    true
  else false

/- ### Bespoke matchers for the host regular expressions

The engine delegates pattern matching to the host `re` module, which is not
part of this repository; the matchers below model the exact patterns the
source uses, reproducing the leftmost-match backtracking semantics of the
host engine (greedy `\s+` tried longest first, lazy `(.+?)` shortest first).
Expressions handed to them come from single source lines and contain no
newline, so `.` is modelled as "any character". -/

/-- Length of the leading whitespace run. -/
def wsRun (l : Str) : Nat := (l.takeWhile isPyWs).length

/-- Tail step of `kw\s+(.+?)\s+(.+)$`: given the text after the first group,
match `\s+(.+)$` and return the second group.  The trailing `.+` is greedy,
so when the tail is all whitespace the greedy `\s+` backtracks one step and
the second group is a single whitespace character. -/
def tailGroup (u : Str) : Option Str :=
  let r := wsRun u
  if r = 0 then none
  else if r < u.length then some (u.drop r)
  else if 2 ≤ r then some (u.drop (r - 1))
  else none

/-- Search for the lazy first group: the shortest nonempty prefix of `s`
whose remainder matches `\s+(.+)$`. -/
def lazyGroupGo : Str → Str → Option (Str × Str)
  | _, [] => none
  | acc, c :: u =>
    match tailGroup u with
    | some b => some ((c :: acc).reverse, b)
    | none => lazyGroupGo (c :: acc) u

/-- `re.match(r'kw\s+(.+?)\s+(.+)$', expr)` where `t` is the text of `expr`
after the literal keyword: try the greedy whitespace length from longest to
shortest, and within it the shortest first group. -/
def twoGroupMatch (t : Str) : Option (Str × Str) :=
  go (wsRun t)
where
  go : Nat → Option (Str × Str)
    | 0 => none
    | k + 1 =>
      match lazyGroupGo [] (t.drop (k + 1)) with
      | some r => some r
      | none => go k

/-- Match `\s+"([^"]*)"` at the start of `u`; returns the quoted text and the
remainder after the closing quote.  The whitespace run is forced: whitespace
characters are never quotes, so no backtracking arises. -/
def quotedAfterWs (u : Str) : Option (Str × Str) :=
  let r := wsRun u
  if r = 0 then none
  else match u.drop r with
    | '"' :: v =>
      let g := v.takeWhile (· ≠ '"')
      if g.length < v.length then some (g, v.drop (g.length + 1)) else none
    | _ => none

/-- Tail of the `replace` pattern after the first group:
`\s+"([^"]*)"\s+"([^"]*)"` (a prefix match; trailing text is ignored,
as `re.match` does not anchor the end). -/
def replTail (u : Str) : Option (Str × Str) :=
  match quotedAfterWs u with
  | some (old, rest) =>
    match quotedAfterWs rest with
    | some (nw, _) => some (old, nw)
    | none => none
  | none => none

/-- Lazy search for the `replace` first group. -/
def replGroupGo : Str → Str → Option (Str × Str × Str)
  | _, [] => none
  | acc, c :: u =>
    match replTail u with
    | some (o, n) => some ((c :: acc).reverse, o, n)
    | none => replGroupGo (c :: acc) u

/-- `re.match(r'replace\s+(.+?)\s+"([^"]*)"\s+"([^"]*)"', expr)` where `t`
is the text after the literal `replace`. -/
def replaceMatch (t : Str) : Option (Str × Str × Str) :=
  go (wsRun t)
where
  go : Nat → Option (Str × Str × Str)
    | 0 => none
    | k + 1 =>
      match replGroupGo [] (t.drop (k + 1)) with
      | some r => some r
      | none => go k

/-- `re.match(r"count\s*[><=]", expr)` where `t` is the text after the
literal `count`. -/
def countGuard (t : Str) : Bool :=
  match t.dropWhile isPyWs with
  | c :: _ => c = '>' ∨ c = '<' ∨ c = '='
  | [] => false

/-- `re.match(r"(\S+)\s+(.+)", body)` used by the `write`/`append`
statements: first non-whitespace token, then the rest after the whitespace
run (`.+` greedy; with no end anchor the greedy run is forced because
`\S`/`\s` are disjoint). -/
def writeMatch (body : Str) : Option (Str × Str) :=
  let b := body.takeWhile (fun c => ¬ isPyWs c)
  if b = [] then none
  else
    let u := body.drop b.length
    let r := wsRun u
    if r = 0 then none
    else if r < u.length then some (b, u.drop r)
    else if 2 ≤ r then some (b, u.drop (r - 1))
    else none

/-- `re.match(r"^[A-Za-z_][\w]*\s", expr)`: an identifier followed by a
whitespace character. -/
def identThenWs (l : Str) : Bool :=
  match l with
  | c :: rest =>
    if isIdentStart c then
      match rest.drop (rest.takeWhile isWordChar).length with
      | d :: _ => isPyWs d
      | [] => false
    else false
  | [] => false

/-- `re.match(r"Line (\d+):", msg)` as used by `analyze_tale_code`: parse
the 1-based line number from a diagnostic prefix. -/
def diagLineOf (msg : Str) : Option Nat :=
  if List.isPrefixOf "Line ".toList msg then
    let rest := msg.drop 5
    let ds := rest.takeWhile Char.isDigit
    if ds ≠ [] ∧ (rest.drop ds.length).head? = some ':' then
      some (ds.foldl (fun acc c => 10 * acc + (c.toNat - '0'.toNat)) 0)
    else none
  else none

/- ### Host `shlex.split(body, posix=False)` model

`shlex.split` sets `whitespace_split`, so tokens are delimited by
whitespace only; with `posix=False` quoted spans keep their quotes and an
unterminated quote raises `ValueError` (modelled as `none`). -/

/-- Model of `shlex.split(s, posix=False)`. -/
def shlexSplit (l : Str) : Option (List Str) :=
  go l [] []
where
  go : Str → Str → List Str → Option (List Str)
    | [], cur, toks => some (toks.reverse ++ if cur = [] then [] else [cur.reverse])
    | c :: rest, cur, toks =>
      if c = '"' ∨ c = '\'' then inQ c rest (c :: cur) toks
      else if isPyWs c then
        go rest [] (if cur = [] then toks else cur.reverse :: toks)
      else go rest (c :: cur) toks
  inQ : Char → Str → Str → List Str → Option (List Str)
    | _, [], _, _ => none
    | q, c :: rest, cur, toks =>
      if c = q then go rest (c :: cur) toks else inQ q rest (c :: cur) toks

/- ### Dict-key normalisation and keyword substitution (`re.sub` models) -/

/-- One probe of the pattern `(?<!["'])\b(?P<key>[A-Za-z_][\w]*)\s*:` at the
current position: `prev` is the character before the position in the
original string.  Returns the matched key and the remainder after the
colon when the pattern matches here. -/
def dictKeyProbe (prev : Option Char) (l : Str) : Option (Str × Str) :=
  match l with
  | c :: rest =>
    let prevOk : Bool := match prev with
      | none => true
      | some p => ¬ (p = '"' ∨ p = '\'') ∧ ¬ isWordChar p
    if isIdentStart c ∧ prevOk then
      let run := c :: rest.takeWhile isWordChar
      let after := rest.drop (run.length - 1)
      match after.drop (wsRun after) with
      | ':' :: rest2 => some (run, rest2)
      | _ => none
    else none
  | [] => none

/-- `re.sub` scan for `_normalize_dict` (fuel-driven; the fuel starts at the
input length plus one and strictly decreases, so the scan is total and
evaluable). -/
def normGo : Nat → Option Char → Str → Str
  | 0, _, l => l
  | _ + 1, _, [] => []
  | f + 1, prev, c :: rest =>
    match dictKeyProbe prev (c :: rest) with
    | some (run, rest2) =>
      '"' :: (run ++ '"' :: ':' :: normGo f (some ':') rest2)
    | none => c :: normGo f (some c) rest

/-- `TaleInterpreter._normalize_dict`: quote bare identifier keys before a
colon. -/
def normalize_dict (l : Str) : Str := normGo (l.length + 1) none l

/-- Case-insensitive comparison of a candidate against a lowercase keyword. -/
def matchesCI (kw cand : Str) : Bool := pyLower cand = kw

/-- One `re.sub` pass for a word-bounded keyword pattern.  `ci` selects
case-insensitive matching, `bAfter` whether the pattern ends with `\b`.
The scan walks the input left to right, replacing non-overlapping matches;
`prev` tracks the character before the current position in the input. -/
def kwSubGo (kw rep : Str) (ci bAfter : Bool) : Nat → Option Char → Str → Str
  | 0, _, l => l
  | _ + 1, _, [] => []
  | f + 1, prev, c :: rest =>
    let boundaryPre := match prev with
      | none => true
      | some p => ¬ isWordChar p
    let cand := (c :: rest).take kw.length
    let boundaryPost : Bool := match (c :: rest).drop kw.length with
      | d :: _ => ¬ isWordChar d
      | [] => true
    let hit : Bool := boundaryPre &&
      (cand.length = kw.length : Bool) &&
      (if ci then matchesCI kw cand else (cand = kw : Bool)) &&
      (!bAfter || boundaryPost)
    if hit ∧ kw ≠ [] then
      rep ++ kwSubGo kw rep ci bAfter f cand.getLast? ((c :: rest).drop kw.length)
    else c :: kwSubGo kw rep ci bAfter f (some c) rest

/-- `re.sub(r"\bkw\b", rep, l, flags=IGNORECASE)`-style substitution. -/
def kwSub (kw rep : Str) (ci bAfter : Bool) (l : Str) : Str :=
  kwSubGo kw rep ci bAfter (l.length + 1) none l

/- ### Translation errors

The translator can fail with the engine's own `TaleSyntaxError` or with an
ordinary host exception (such as the `ValueError` from an unpacking that
finds too few values).  `run_tale_code` and `analyze_tale_code` distinguish
the two, so the error type records which kind occurred, carrying `str(exc)`. -/

/-- A translation-time failure: `tale` models `TaleSyntaxError`, `infra`
models any other host exception escaping the translator. -/
inductive TransErr where
  | tale (msg : Str)
  | infra (msg : Str)
deriving Repr, DecidableEq

/-- `str(exc)` of a translation failure. -/
def TransErr.msg : TransErr → Str
  | .tale m => m
  | .infra m => m

/-- The `TaleSyntaxError` message `I could not understand: <snippet>`. -/
def understandErr (snippet : Str) : TransErr :=
  .tale ("I could not understand: ".toList ++ snippet)

/-- The `TaleSyntaxError` message `Wrong number of values: <snippet>`. -/
def wrongNumErr (snippet : Str) : TransErr :=
  .tale ("Wrong number of values: ".toList ++ snippet)

/-- The `ValueError` message raised by a 2-element unpacking of a
single-element split result. -/
def unpackErr : TransErr :=
  .infra "not enough values to unpack (expected 2, got 1)".toList

/-- `TaleInterpreter._split_first`. -/
def split_first (text : Str) : Except TransErr (Str × Str) :=
  let parts := split_args text
  if parts.length < 2 then
    match wsSplitOnce (pyStrip text) with
    | [a, b] => .ok (pyStrip a, pyStrip b)
    | _ => .error (wrongNumErr text)
  else
    let first := parts.headD []
    let rest0 := pyStrip (((text.drop first.length).dropWhile isPyWs).dropWhile (· = ','))
    let rest := if rest0 = [] then parts.getD 1 [] else rest0
    .ok (pyStrip first, pyStrip rest)

/- ### Stand-in for the host expression parser (`_validate_expr`)

The engine validates rewritten expressions with `ast.parse(expr,
mode="eval")` followed by a walk that accepts only an allow-list of node
kinds (§4.5 of the specification).  The `ast` module is host-library code,
not part of this repository; it is modelled here by a token-level check:
the expression must tokenise (strings terminated, only known characters),
brackets must balance, the token list must be nonempty, and no two atoms
(identifier / number / string) may be adjacent.  The bare keywords `is`
and `as` are rejected outright: every expression containing one is turned
down by the host (at parse, or by the walk, since `ast.Is` is not in the
allow-list), while `and or not if else for in lambda` are connective
tokens.  This agrees with the host on every expression evaluated in this
development. -/

/-- Token kinds for the validator stand-in. -/
inductive PyTok where
  | atom
  | sym
  | lpar | rpar
  | lbrk | rbrk
  | lbrc | rbrc
deriving Repr, DecidableEq

/-- Characters accepted as (runs of) operator symbols. -/
def isOpChar (c : Char) : Bool :=
  c = '+' ∨ c = '-' ∨ c = '*' ∨ c = '/' ∨ c = '%' ∨ c = '<' ∨ c = '>' ∨
  c = '=' ∨ c = '!' ∨ c = '&' ∨ c = '|' ∨ c = '^' ∨ c = '~' ∨ c = '@' ∨
  c = ':' ∨ c = ',' ∨ c = '.'

/-- Identifier-like tokens classified as connectives rather than atoms. -/
def isConnectiveWord (w : Str) : Bool :=
  w = "and".toList ∨ w = "or".toList ∨ w = "not".toList ∨ w = "if".toList ∨
  w = "else".toList ∨ w = "for".toList ∨ w = "in".toList ∨ w = "lambda".toList

/-- Tokeniser for the validator stand-in (fuel-driven scan). -/
def pyTokGo : Nat → Str → Option (List PyTok)
  | 0, _ => none
  | _ + 1, [] => some []
  | f + 1, c :: rest =>
    if isPyWs c then pyTokGo f rest
    else if isIdentStart c then
      let run := c :: rest.takeWhile isWordChar
      if run = "is".toList ∨ run = "as".toList then none
      else
        let tok := if isConnectiveWord run then PyTok.sym else PyTok.atom
        (pyTokGo f (rest.drop (run.length - 1))).map (tok :: ·)
    else if c.isDigit then
      let run := (c :: rest).takeWhile (fun d => d.isDigit ∨ d = '.')
      (pyTokGo f ((c :: rest).drop run.length)).map (PyTok.atom :: ·)
    else if c = '"' ∨ c = '\'' then
      if rest.take 2 = [c, c] then
        match splitOnce [c, c, c] (rest.drop 2) with
        | some (_, after) => (pyTokGo f after).map (PyTok.atom :: ·)
        | none => none
      else
        match splitOnce [c] rest with
        | some (_, after) => (pyTokGo f after).map (PyTok.atom :: ·)
        | none => none
    else if c = '(' then (pyTokGo f rest).map (PyTok.lpar :: ·)
    else if c = ')' then (pyTokGo f rest).map (PyTok.rpar :: ·)
    else if c = '[' then (pyTokGo f rest).map (PyTok.lbrk :: ·)
    else if c = ']' then (pyTokGo f rest).map (PyTok.rbrk :: ·)
    else if c = Char.ofNat 123 then (pyTokGo f rest).map (PyTok.lbrc :: ·)
    else if c = Char.ofNat 125 then (pyTokGo f rest).map (PyTok.rbrc :: ·)
    else if isOpChar c then (pyTokGo f rest).map (PyTok.sym :: ·)
    else none

/-- Bracket balance check over the token list. -/
def toksBalanced (toks : List PyTok) : Bool :=
  go toks []
where
  go : List PyTok → List PyTok → Bool
    | [], stack => stack = []
    | t :: rest, stack =>
      match t with
      | .lpar => go rest (.lpar :: stack)
      | .lbrk => go rest (.lbrk :: stack)
      | .lbrc => go rest (.lbrc :: stack)
      | .rpar => match stack with | .lpar :: s => go rest s | _ => false
      | .rbrk => match stack with | .lbrk :: s => go rest s | _ => false
      | .rbrc => match stack with | .lbrc :: s => go rest s | _ => false
      | _ => go rest stack

/-- No two adjacent atom tokens. -/
def noAdjacentAtoms : List PyTok → Bool
  | .atom :: .atom :: _ => false
  | _ :: rest => noAdjacentAtoms rest
  | [] => true

/-- The validator stand-in: accept when the expression tokenises, brackets
balance, the expression is nonempty and no two atoms are adjacent. -/
def ast_expr_ok (l : Str) : Bool :=
  match pyTokGo (l.length + 1) l with
  | some toks => toks ≠ [] ∧ toksBalanced toks ∧ noAdjacentAtoms toks
  | none => false

/-- `TaleInterpreter._validate_expr`, with the failure message built from
the original line. -/
def validate_expr (e line : Str) : Except TransErr Unit :=
  if ast_expr_ok e then .ok () else .error (understandErr (pyStrip line))

/-- `TaleInterpreter._validate_name`. -/
def validate_name (name line : Str) : Except TransErr Unit :=
  if isIdentStr name then .ok () else .error (understandErr (pyStrip line))

/-- Python `repr` of an identifier string: single quotes around it. -/
def pyRepr (l : Str) : Str := sq :: (l ++ [sq])

/-- Abbreviation for `List.isPrefixOf` over modelled strings. -/
def sw (p l : Str) : Bool := p.isPrefixOf l

/-- The tail of `_transform_expr` (source lines 794-808): dict-key
normalisation followed by the keyword substitutions, in source order. -/
def postNorm (e : Str) : Str :=
  let e := normalize_dict e
  let e := kwSub "true".toList "True".toList true true e
  let e := kwSub "false".toList "False".toList true true e
  let e := kwSub "nothing".toList "None".toList true true e
  let e := kwSub "none".toList "None".toList true true e
  let e := kwSub "is not same as".toList " != ".toList true true e
  let e := kwSub "is same as".toList " == ".toList true true e
  let e := kwSub "number(".toList "int(".toList false false e
  let e := kwSub "text(".toList "str(".toList false false e
  kwSub "decimal(".toList "float(".toList false false e

/-- The operator/punctuation characters that disable the space-separated
call shorthand. -/
def shorthandOps : Str :=
  ['+', '-', '*', '/', '%', '<', '>', '=', ':', '(', ')', '[', ']',
   Char.ofNat 123, Char.ofNat 125, '.', ',']

/- ### The expression rewriter (`TaleInterpreter._transform_expr`)

Branches appear in source order.  Recursion is driven by an explicit fuel
so that the function is structurally recursive and fully evaluable; every
recursive call of the source operates on a strict substring, so the
top-level wrapper `transform_expr` supplies ample fuel. -/

/-- Tail helper for the unary string-method branches: drop the keyword,
strip, and strip an optional `of `. -/
def unaryTail (expr : Str) (plen : Nat) : Str :=
  let tail := pyStrip (expr.drop plen)
  if sw "of ".toList tail then pyStrip (tail.drop 3) else tail

mutual

/-- `TaleInterpreter._transform_expr` with explicit fuel. -/
def transformF : Nat → Str → Except TransErr Str
  | 0, e => .ok e
  | f + 1, e0 =>
    let expr := pyStrip e0
    if looks_like_string expr then .ok expr
    else if sw "type of ".toList expr then do
      let t ← transformF f (pyStrip (expr.drop 8))
      .ok ("type(".toList ++ t ++ [')'])
    else if sw "id of ".toList expr then do
      let t ← transformF f (pyStrip (expr.drop 6))
      .ok ("id(".toList ++ t ++ [')'])
    else if sw "text r\"".toList expr ∨ sw ("text r".toList ++ [sq]) expr then
      .ok (pyStrip (expr.drop 5))
    else if sw "upper ".toList expr then do
      let base ← transformF f (unaryTail expr 6)
      .ok ('(' :: base ++ ").upper()".toList)
    else if sw "lower ".toList expr then do
      let base ← transformF f (unaryTail expr 6)
      .ok ('(' :: base ++ ").lower()".toList)
    else if sw "title ".toList expr then do
      let base ← transformF f (unaryTail expr 6)
      .ok ('(' :: base ++ ").title()".toList)
    else if sw "strip ".toList expr then do
      let base ← transformF f (unaryTail expr 6)
      .ok ('(' :: base ++ ").strip()".toList)
    else if sw "isalpha ".toList expr then do
      let base ← transformF f (unaryTail expr 8)
      .ok ('(' :: base ++ ").isalpha()".toList)
    else if sw "isdigit ".toList expr then do
      let base ← transformF f (unaryTail expr 8)
      .ok ('(' :: base ++ ").isdigit()".toList)
    else if sw "isalnum ".toList expr then do
      let base ← transformF f (unaryTail expr 8)
      .ok ('(' :: base ++ ").isalnum()".toList)
    else
    match (if sw "replace ".toList expr then replaceMatch (expr.drop 7) else none) with
    | some (g1, old, nw) => do
      let base ← transformF f (pyStrip g1)
      .ok ('(' :: base ++ ").replace(\"".toList ++ old ++ "\", \"".toList ++ nw ++ "\")".toList)
    | none =>
    match (if sw "split ".toList expr then twoGroupMatch (expr.drop 5) else none) with
    | some (g1, g2) => do
      let base ← transformF f (pyStrip g1)
      let sep ← transformF f (pyStrip g2)
      .ok ('(' :: base ++ ").split(".toList ++ sep ++ [')'])
    | none =>
    match (if sw "join ".toList expr then twoGroupMatch (expr.drop 4) else none) with
    | some (g1, g2) => do
      let glue ← transformF f (pyStrip g1)
      let target ← transformF f (pyStrip g2)
      .ok ('(' :: glue ++ ").join(".toList ++ target ++ [')'])
    | none =>
    match (if sw "find ".toList expr then twoGroupMatch (expr.drop 4) else none) with
    | some (g1, g2) => do
      let base ← transformF f (pyStrip g1)
      let sub ← transformF f (pyStrip g2)
      .ok ('(' :: base ++ ").find(".toList ++ sub ++ [')'])
    | none =>
    match (if sw "count ".toList expr ∧ ¬ countGuard (expr.drop 5) then
             twoGroupMatch (expr.drop 5) else none) with
    | some (g1, g2) => do
      let base ← transformF f (pyStrip g1)
      let sub ← transformF f (pyStrip g2)
      .ok ('(' :: base ++ ").count(".toList ++ sub ++ [')'])
    | none =>
    match (if sw "starts ".toList expr then twoGroupMatch (expr.drop 6) else none) with
    | some (g1, g2) => do
      let base ← transformF f (pyStrip g1)
      let sub ← transformF f (pyStrip g2)
      .ok ('(' :: base ++ ").startswith(".toList ++ sub ++ [')'])
    | none =>
    match (if sw "ends ".toList expr then twoGroupMatch (expr.drop 4) else none) with
    | some (g1, g2) => do
      let base ← transformF f (pyStrip g1)
      let sub ← transformF f (pyStrip g2)
      .ok ('(' :: base ++ ").endswith(".toList ++ sub ++ [')'])
    | none =>
    if sw "map ".toList expr then do
      let rest := match splitOnce [' '] expr with | some (_, r) => r | none => []
      let (fnP, seqP) ← split_first rest
      let a ← transformF f fnP
      let b ← transformF f seqP
      .ok ("map(".toList ++ a ++ ", ".toList ++ b ++ [')'])
    else if sw "filter ".toList expr then do
      let rest := match splitOnce [' '] expr with | some (_, r) => r | none => []
      let (fnP, seqP) ← split_first rest
      let a ← transformF f fnP
      let b ← transformF f seqP
      .ok ("filter(".toList ++ a ++ ", ".toList ++ b ++ [')'])
    else if sw "enumerate ".toList expr then do
      let t ← transformF f (pyStrip (expr.drop 10))
      .ok ("enumerate(".toList ++ t ++ [')'])
    else if sw "zip ".toList expr then do
      let parts ← transformListF f ((split_args (expr.drop 4)).map pyStrip)
      .ok ("zip(".toList ++ joinWith ", ".toList parts ++ [')'])
    else if sw "next ".toList expr then do
      let t ← transformF f (pyStrip (expr.drop 5))
      .ok ("next(".toList ++ t ++ [')'])
    else if sw "call ".toList expr then
      let body := pyStrip (expr.drop 5)
      if body = [] then .error (understandErr "call".toList)
      else if body.any (· = '(') then transformF f body
      else
        let parts := (shlexSplit body).getD (wsSplit body)
        match parts with
        | [] => .error (.infra "not enough values to unpack (expected at least 1, got 0)".toList)
        | fn :: args =>
          if ¬ isIdentStr fn then .error (understandErr expr)
          else if args = [] then .ok (fn ++ "()".toList)
          else do
            let es ← transformListF f args
            .ok (fn ++ '(' :: joinWith ", ".toList es ++ [')'])
    else
    match (if sw "get ".toList expr then
             (if (pyStrip (expr.drop 4)).any (· = ' ') then
                splitOnce [' '] (pyStrip (expr.drop 4)) else none)
           else none) with
    | some (dictName, key) => do
      let d ← transformF f (pyStrip dictName)
      let rawKey := pyStrip key
      let k ← if isIdentStr rawKey then .ok (pyRepr rawKey) else transformF f rawKey
      .ok ('(' :: d ++ ").get(".toList ++ k ++ [')'])
    | none =>
    if sw "len ".toList expr then do
      let t ← transformF f (pyStrip (expr.drop 4))
      .ok ("len(".toList ++ t ++ [')'])
    else if sw "sum ".toList expr then do
      let t ← transformF f (pyStrip (expr.drop 4))
      .ok ("sum(".toList ++ t ++ [')'])
    else if sw "min ".toList expr then do
      let t ← transformF f (pyStrip (expr.drop 4))
      .ok ("min(".toList ++ t ++ [')'])
    else if sw "max ".toList expr then do
      let t ← transformF f (pyStrip (expr.drop 4))
      .ok ("max(".toList ++ t ++ [')'])
    else if sw "sorted ".toList expr then do
      let t ← transformF f (pyStrip (expr.drop 7))
      .ok ("sorted(".toList ++ t ++ [')'])
    else if sw "any ".toList expr then do
      let t ← transformF f (pyStrip (expr.drop 4))
      .ok ("any(".toList ++ t ++ [')'])
    else if sw "all ".toList expr then do
      let t ← transformF f (pyStrip (expr.drop 4))
      .ok ("all(".toList ++ t ++ [')'])
    else if sw "union ".toList expr then do
      let (aP, bP) ← split_first (expr.drop 6)
      let a ← transformF f aP
      let b ← transformF f bP
      .ok ('(' :: a ++ ") | (".toList ++ b ++ [')'])
    else if sw "intersection ".toList expr then do
      let (aP, bP) ← split_first (expr.drop 13)
      let a ← transformF f aP
      let b ← transformF f bP
      .ok ('(' :: a ++ ") & (".toList ++ b ++ [')'])
    else if sw "difference ".toList expr then do
      let (aP, bP) ← split_first (expr.drop 11)
      let a ← transformF f aP
      let b ← transformF f bP
      .ok ('(' :: a ++ ") - (".toList ++ b ++ [')'])
    else if sw "subset ".toList expr then do
      let (aP, bP) ← split_first (expr.drop 7)
      let a ← transformF f aP
      let b ← transformF f bP
      .ok ('(' :: a ++ ").issubset(".toList ++ b ++ [')'])
    else if sw "copy ".toList expr then do
      let t ← transformF f (pyStrip (expr.drop 5))
      .ok ('(' :: t ++ ").copy()".toList)
    else if sw "dict ".toList expr then
      .ok (normalize_dict (expr.drop 5))
    else if sw "json read ".toList expr then do
      let p ← transformF f (pyStrip (expr.drop 10))
      .ok ("read_json(".toList ++ p ++ [')'])
    else if sw "json write ".toList expr ∧ isSubstr " to ".toList expr then
      match splitOnce " to ".toList (expr.drop 11) with
      | some (dataP, pathP) => do
        let d ← transformF f (pyStrip dataP)
        let p ← transformF f (pyStrip pathP)
        .ok ("write_json(".toList ++ d ++ ", ".toList ++ p ++ [')'])
      | none => .error unpackErr
    else if sw "csv read ".toList expr then do
      let p ← transformF f (pyStrip (expr.drop 9))
      .ok ("read_csv(".toList ++ p ++ [')'])
    else if sw "csv write ".toList expr ∧ isSubstr " to ".toList expr then
      match splitOnce " to ".toList (expr.drop 10) with
      | some (rowsP, pathP) => do
        let r ← transformF f (pyStrip rowsP)
        let p ← transformF f (pyStrip pathP)
        .ok ("write_csv(".toList ++ r ++ ", ".toList ++ p ++ [')'])
      | none => .error unpackErr
    else if sw "read ".toList expr then do
      let t ← transformF f (pyStrip (expr.drop 5))
      .ok ('(' :: t ++ ").read()".toList)
    else if sw "lambda ".toList expr ∧ isSubstr "->".toList expr then
      match splitOnce "->".toList (expr.drop 7) with
      | some (params, body) => do
        let b ← transformF f (pyStrip body)
        .ok ("lambda ".toList ++ pyStrip params ++ ':' :: ' ' :: b)
      | none => .error unpackErr
    else
    match (if identThenWs expr ∧ ¬ expr.any (fun c => shorthandOps.contains c) then
             some ((shlexSplit expr).getD (wsSplit expr)) else none) with
    | some (fn :: a :: args) =>
      if isIdentStr fn then do
        let es ← transformListF f (a :: args)
        .ok (fn ++ '(' :: joinWith ", ".toList es ++ [')'])
      else .ok (postNorm expr)
    | _ => .ok (postNorm expr)

/-- Rewrite a list of argument expressions, in order, left to right. -/
def transformListF : Nat → List Str → Except TransErr (List Str)
  | _, [] => .ok []
  | 0, l => .ok l
  | f + 1, p :: ps => do
    let e ← transformF f p
    let es ← transformListF f ps
    .ok (e :: es)

end

/-- `TaleInterpreter._transform_expr`: the rewriter with ample fuel. -/
def transform_expr (l : Str) : Except TransErr Str :=
  transformF (2 * l.length + 64) l

/- ### The line translator (`TaleInterpreter._translate_line`) -/

/-- `TaleInterpreter._parse_fn_header`. -/
def parse_fn_header (header line : Str) : Except TransErr (Str × Str) :=
  match wsSplit header with
  | [] => .error (understandErr (pyStrip line))
  | name0 :: rest => do
    let name := if name0 = "init".toList then "__init__".toList else name0
    let params0 := joinWith [' '] rest
    let params1 := pyReplace [','] [' '] params0
    let params2 := pyReplace [' ', ' '] [' '] params1
    let params := joinWith ", ".toList (wsSplit (pyStrip params2))
    validate_name name line
    .ok (name, params)

/-- The translated text of an `ask` line with a prompt and a variable. -/
def askPromptVar (p v : Str) : Str :=
  "print(".toList ++ p ++ ", end=".toList ++ [sq, sq] ++ "); ".toList ++
    v ++ " = input_provider(); result = ".toList ++ v

/-- The translated text of an `ask` line with only a prompt. -/
def askPromptOnly (p : Str) : Str :=
  "print(".toList ++ p ++ ", end=".toList ++ [sq, sq] ++
    "); result = input_provider()".toList

/-- The translated text of a `with file`/`open` file-open call. -/
def openFileCall (fe : Str) : Str :=
  "_open_file(".toList ++ fe ++ ", ".toList ++ [sq, 'r', sq] ++ [')']

/-- `TaleInterpreter._translate_line`: translate a single non-marker line,
returning the target statement and whether it opens a block. -/
def translate_line (line : Str) : Except TransErr (Str × Bool) :=
  let stripped := pyStrip line
  let lowered := pyLower stripped
  if sw "if ".toList lowered then do
    let c ← transform_expr (stripped.drop 3)
    validate_expr c line
    .ok ("if ".toList ++ c ++ [':'], true)
  else if sw "while ".toList lowered then do
    let c ← transform_expr (stripped.drop 6)
    validate_expr c line
    .ok ("while ".toList ++ c ++ [':'], true)
  else if lowered = "try".toList then .ok ("try:".toList, true)
  else if sw "function ".toList lowered then do
    let (name, params) ← parse_fn_header (pyStrip (stripped.drop 9)) line
    .ok ("def ".toList ++ name ++ '(' :: params ++ "):".toList, true)
  else if sw "generator ".toList lowered then do
    let (name, params) ← parse_fn_header (pyStrip (stripped.drop 10)) line
    .ok ("def ".toList ++ name ++ '(' :: params ++ "):".toList, true)
  else if sw "class ".toList lowered then
    .ok ("class ".toList ++ pyStrip (stripped.drop 6) ++ [':'], true)
  else if sw "with file ".toList lowered ∧ isSubstr " as ".toList lowered then
    match splitOnce " as ".toList (stripped.drop 9) with
    | none => .error unpackErr
    | some (beforeAs, aliasP) => do
      let fe ← transform_expr (pyStrip beforeAs)
      let a := pyStrip aliasP
      validate_name a line
      .ok ("with ".toList ++ openFileCall fe ++ " as ".toList ++ a ++ [':'], true)
  else if sw "with ".toList lowered ∧ isSubstr " as ".toList lowered then
    match splitOnce " as ".toList (stripped.drop 5) with
    | none => .error unpackErr
    | some (beforeAs, aliasP) => do
      let ctx ← transform_expr (pyStrip beforeAs)
      let a := pyStrip aliasP
      validate_name a line
      .ok ("with ".toList ++ ctx ++ " as ".toList ++ a ++ [':'], true)
  else if sw "for each ".toList lowered ∧ isSubstr " in ".toList lowered then
    match splitOnce " in ".toList (stripped.drop 9) with
    | none => .error unpackErr
    | some (varPart, exprPart) => do
      let v := pyStrip varPart
      let e ← transform_expr (pyStrip exprPart)
      validate_name v line
      .ok ("for ".toList ++ v ++ " in ".toList ++ e ++ [':'], true)
  else if sw "repeat ".toList lowered then
    let body := pyStrip (stripped.drop 7)
    if isSubstr " as ".toList body then
      match splitOnce " as ".toList body with
      | none => .error unpackErr
      | some (countExpr, varName) => do
        let v := pyStrip varName
        validate_name v line
        let count ← transform_expr (pyStrip countExpr)
        validate_expr count line
        .ok ("for ".toList ++ v ++ " in range(".toList ++ count ++ "):".toList, true)
    else do
      let count ← transform_expr body
      validate_expr count line
      .ok ("for _ in range(".toList ++ count ++ "):".toList, true)
  else if sw "say formatted ".toList lowered then do
    let fmt := pyStrip (stripped.drop 14)
    let py := if ¬ sw ['f'] fmt then 'f' :: fmt else fmt
    validate_expr py line
    .ok ("print(".toList ++ py ++ [')'], false)
  else if sw "say ".toList lowered then
    let payload := pyStrip (stripped.drop 4)
    if sw ['"', '"', '"'] payload then do
      validate_expr payload line
      .ok ("print(".toList ++ payload ++ [')'], false)
    else do
      let sa := split_args payload
      let args :=
        if sa.length = 1 then
          let cp := split_concat_args payload
          if 1 < cp.length ∧ cp.any looks_like_string then cp else sa
        else sa
      let parts ← args.mapM (fun part => do
        let e ← transform_expr (pyStrip part)
        validate_expr e line
        pure e)
      .ok ("print(".toList ++ joinWith ", ".toList parts ++ [')'], false)
  else if sw "ask ".toList lowered then
    let body := pyStrip (stripped.drop 4)
    if body = [] then .error (understandErr (pyStrip line))
    else if isSubstr " as ".toList body then
      match splitOnce " as ".toList body with
      | none => .error unpackErr
      | some (promptPart, varPart) => do
        let p ← transform_expr (pyStrip promptPart)
        validate_expr p line
        let v := pyStrip varPart
        validate_name v line
        .ok (askPromptVar p v, false)
    else if isIdentStr body then do
      validate_name body line
      .ok (body ++ " = input_provider(); result = ".toList ++ body, false)
    else do
      let p ← transform_expr body
      validate_expr p line
      .ok (askPromptOnly p, false)
  else if sw "return".toList lowered then
    let tail := pyStrip (stripped.drop 6)
    if tail = [] then .ok ("return".toList, false)
    else do
      let e ← transform_expr tail
      validate_expr e line
      .ok ("return ".toList ++ e, false)
  else if sw "yield".toList lowered then do
    let tail := pyStrip (stripped.drop 5)
    let e ← if tail = [] then .ok "None".toList else transform_expr tail
    validate_expr e line
    .ok ("yield ".toList ++ e, false)
  else if sw "raise".toList lowered then do
    let tail := pyStrip (stripped.drop 5)
    let e ← if tail = [] then .ok "Exception()".toList else transform_expr tail
    validate_expr e line
    .ok ("raise ".toList ++ e, false)
  else if sw "import ".toList lowered then .ok (stripped, false)
  else if sw "from ".toList lowered then .ok (stripped, false)
  else if sw "global ".toList lowered then .ok (stripped, false)
  else if sw "open ".toList lowered ∧ isSubstr " as ".toList lowered then
    match splitOnce " as ".toList (stripped.drop 5) with
    | none => .error unpackErr
    | some (beforeAs, aliasP) => do
      let fe ← transform_expr (pyStrip beforeAs)
      let a := pyStrip aliasP
      validate_name a line
      .ok (a ++ " = ".toList ++ openFileCall fe, false)
  else if sw "write ".toList lowered then
    match writeMatch (stripped.drop 6) with
    | none => .error (wrongNumErr (pyStrip line))
    | some (target, content) => do
      let et ← transform_expr target
      let ec ← transform_expr content
      .ok (et ++ ".write(".toList ++ ec ++ [')'], false)
  else if sw "append ".toList lowered then
    match writeMatch (stripped.drop 7) with
    | none => .error (wrongNumErr (pyStrip line))
    | some (target, content) => do
      let et ← transform_expr target
      let ec ← transform_expr content
      .ok (et ++ ".write(".toList ++ ec ++ [')'], false)
  else if sw "read ".toList lowered then do
    let e ← transform_expr (pyStrip (stripped.drop 5))
    .ok (e ++ ".read()".toList, false)
  else if sw "close ".toList lowered then do
    let e ← transform_expr (pyStrip (stripped.drop 6))
    .ok (e ++ ".close()".toList, false)
  else if sw "add ".toList lowered ∧ isSubstr " to ".toList lowered then
    match splitOnce " to ".toList (stripped.drop 4) with
    | none => .error unpackErr
    | some (item, target) => do
      let ei ← transform_expr (pyStrip item)
      let t := pyStrip target
      validate_name t line
      .ok (t ++ " = _add_to(".toList ++ t ++ ", ".toList ++ ei ++ [')'], false)
  else if sw "extend ".toList lowered ∧ isSubstr " with ".toList lowered then
    match splitOnce " with ".toList (stripped.drop 7) with
    | none => .error unpackErr
    | some (target, rest) => do
      let t := pyStrip target
      let e ← transform_expr (pyStrip rest)
      validate_name t line
      .ok (t ++ ".extend(".toList ++ e ++ [')'], false)
  else if sw "insert ".toList lowered ∧ isSubstr " into ".toList lowered ∧
          isSubstr " at ".toList lowered then
    match splitOnce " into ".toList (stripped.drop 7) with
    | none => .error unpackErr
    | some (valuePart, rest) =>
      match splitOnce " at ".toList rest with
      | none => .error unpackErr
      | some (listPart, idxPart) => do
        let ln := pyStrip listPart
        let idx ← transform_expr (pyStrip idxPart)
        let v ← transform_expr (pyStrip valuePart)
        validate_name ln line
        .ok (ln ++ ".insert(".toList ++ idx ++ ", ".toList ++ v ++ [')'], false)
  else if sw "remove ".toList lowered ∧ isSubstr " from ".toList lowered then
    match splitOnce " from ".toList (stripped.drop 7) with
    | none => .error unpackErr
    | some (valuePart, listPart) => do
      let ln := pyStrip listPart
      let v ← transform_expr (pyStrip valuePart)
      validate_name ln line
      .ok (ln ++ ".remove(".toList ++ v ++ [')'], false)
  else if sw "clear ".toList lowered then
    .ok (pyStrip (stripped.drop 6) ++ ".clear()".toList, false)
  else if sw "sort ".toList lowered then
    .ok (pyStrip (stripped.drop 5) ++ ".sort()".toList, false)
  else if sw "reverse ".toList lowered then
    .ok (pyStrip (stripped.drop 8) ++ ".reverse()".toList, false)
  else if sw "copy ".toList lowered then do
    let e ← transform_expr (pyStrip (stripped.drop 5))
    .ok ('(' :: e ++ ").copy()".toList, false)
  else if sw "get ".toList lowered ∧ isSubstr " from ".toList lowered then
    match splitOnce " from ".toList (stripped.drop 4) with
    | none => .error unpackErr
    | some (keyPart, dictPart) => do
      let k ← transform_expr (pyStrip keyPart)
      let d ← transform_expr (pyStrip dictPart)
      .ok (d ++ ".get(".toList ++ k ++ [')'], false)
  else
  match (if sw "get ".toList lowered ∧ (stripped.drop 4).any (· = ' ') then
           splitOnce [' '] (stripped.drop 4) else none) with
  | some (dictName, key) => do
    let d ← transform_expr (pyStrip dictName)
    let rawKey := pyStrip key
    let k ← if isIdentStr rawKey then .ok (pyRepr rawKey) else transform_expr rawKey
    .ok (d ++ ".get(".toList ++ k ++ [')'], false)
  | none =>
  match (if sw "set ".toList lowered ∧ isSubstr " to ".toList lowered then
           match splitOnce " to ".toList (stripped.drop 4) with
           | some (beforeTo, valuePart) =>
             if beforeTo.any (· = ' ') then
               match splitOnce [' '] beforeTo with
               | some (dn, kp) => some (dn, kp, valuePart)
               | none => none
             else none
           | none => none
         else none) with
  | some (dn, kp, valuePart) => do
    let d ← transform_expr (pyStrip dn)
    let k ← transform_expr (pyStrip kp)
    let v ← transform_expr (pyStrip valuePart)
    .ok (d ++ '[' :: k ++ "] = ".toList ++ v, false)
  | none =>
  if sw "keys ".toList lowered then do
    let d ← transform_expr (pyStrip (stripped.drop 5))
    .ok ("list(".toList ++ d ++ ".keys())".toList, false)
  else if sw "values ".toList lowered then do
    let d ← transform_expr (pyStrip (stripped.drop 7))
    .ok ("list(".toList ++ d ++ ".values())".toList, false)
  else if sw "items ".toList lowered then do
    let d ← transform_expr (pyStrip (stripped.drop 6))
    .ok ("list(".toList ++ d ++ ".items())".toList, false)
  else
  match (if sw "pop ".toList lowered ∧ stripped.any (· = ' ') ∧
            (stripped.drop 4).any (· = ' ') then
           splitOnce [' '] (stripped.drop 4) else none) with
  | some (dn, kp) => do
    let d ← transform_expr (pyStrip dn)
    let k ← transform_expr (pyStrip kp)
    .ok (d ++ ".pop(".toList ++ k ++ ", None)".toList, false)
  | none =>
  if sw "pop ".toList lowered then
    .ok (pyStrip (stripped.drop 4) ++ ".pop()".toList, false)
  else if sw "unpack ".toList lowered ∧ isSubstr " into ".toList lowered then
    match splitOnce " into ".toList (stripped.drop 7) with
    | none => .error unpackErr
    | some (valuePart, targetPart) => do
      let v ← transform_expr (pyStrip valuePart)
      .ok (pyStrip targetPart ++ " = ".toList ++ v, false)
  else if lowered = "break".toList ∨ lowered = "continue".toList ∨
          lowered = "pass".toList then
    .ok (lowered, false)
  else if sw "list ".toList lowered then do
    let body := pyStrip (stripped.drop 5)
    let (namePart, e) ←
      if isSubstr " is ".toList body then
        match splitOnce " is ".toList body with
        | some (np, ep) => do
          let e ← transform_expr (pyStrip ep)
          .ok (np, e)
        | none => .error unpackErr
      else .ok (body, "[]".toList)
    let v := pyStrip namePart
    validate_name v line
    validate_expr e line
    .ok (v ++ " = ".toList ++ e, false)
  else if sw "dict ".toList lowered then do
    let body := pyStrip (stripped.drop 5)
    let (namePart, e) ←
      if isSubstr " is ".toList body then
        match splitOnce " is ".toList body with
        | some (np, ep) => do
          let e ← transform_expr (pyStrip ep)
          .ok (np, e)
        | none => .error unpackErr
      else .ok (body, [Char.ofNat 123, Char.ofNat 125])
    let v := pyStrip namePart
    validate_name v line
    validate_expr e line
    .ok (v ++ " = ".toList ++ e, false)
  else if isSubstr " is ".toList lowered then
    match splitOnce " is ".toList stripped with
    | none => .error unpackErr
    | some (varName, exprPart) => do
      let v := pyStrip varName
      validate_name v line
      let e ← transform_expr (pyStrip exprPart)
      validate_expr e line
      .ok (v ++ " = ".toList ++ e, false)
  else do
    let e ← transform_expr stripped
    validate_expr e line
    .ok (e, false)

/- ### The translator loop (`TaleInterpreter.to_python`) -/

/-- State of the translator loop: the structural indent counter (a Python
integer, hence `Int`), the multi-line note flag, and the emitted lines. -/
structure LoopSt where
  indent : Int
  inNote : Bool
  acc : List Str
deriving Repr, DecidableEq

/-- `TaleInterpreter._pad`: four spaces per indent level, clamped at zero. -/
def padStr (indent : Int) : Str :=
  List.flatten (List.replicate (max indent 0).toNat "    ".toList)

/-- The `f"Line {line_no}: {exc}"` wrapper applied to errors raised by
`_translate_line`. -/
def mkLineErr (n : Nat) (msg : Str) : Str :=
  "Line ".toList ++ natToStr n ++ ": ".toList ++ msg

/-- The triple-quote note delimiter. -/
def noteDelim : Str := ['"', '"', '"']

/-- Process one raw source line (`to_python` loop body, source lines
65-125): note-block tracking, blank/comment skipping, the dedenting block
markers, and dispatch to `_translate_line` with the `Line N:` wrapper on
its errors.  Errors raised directly by the `elif`/`catch` marker branches
propagate unwrapped, as in the source. -/
def procLine (n : Nat) (st : LoopSt) (raw : Str) : Except TransErr LoopSt :=
  let original := raw
  let stripped := pyStrip original
  if st.inNote then
    .ok { st with inNote := ¬ noteDelim.isSuffixOf stripped }
  else if stripped = [] ∨ sw ['#'] stripped then .ok st
  else
    let lowered := pyLower stripped
    if sw ("note ".toList ++ noteDelim) lowered then
      .ok { st with inNote := ¬ noteDelim.isSuffixOf stripped }
    else if lowered = "end".toList then
      .ok { st with indent := max (st.indent - 1) 0 }
    else if sw "elif ".toList lowered then
      let ind := max (st.indent - 1) 0
      match transform_expr (pyStrip (stripped.drop 5)) with
      | .error e => .error e
      | .ok c =>
        match validate_expr c original with
        | .error e => .error e
        | .ok _ =>
          .ok ⟨ind + 1, st.inNote,
               st.acc ++ [padStr ind ++ "elif ".toList ++ c ++ [':']]⟩
    else if lowered = "else".toList then
      let ind := max (st.indent - 1) 0
      .ok ⟨ind + 1, st.inNote, st.acc ++ [padStr ind ++ "else:".toList]⟩
    else if sw "catch ".toList lowered then
      let ind := max (st.indent - 1) 0
      let errName0 := pyStrip (stripped.drop 6)
      let errName := if errName0 = [] then "error".toList else errName0
      match validate_name errName original with
      | .error e => .error e
      | .ok _ =>
        .ok ⟨ind + 1, st.inNote,
             st.acc ++ [padStr ind ++ "except Exception as ".toList ++ errName ++ [':']]⟩
    else if lowered = "finally".toList then
      let ind := max (st.indent - 1) 0
      .ok ⟨ind + 1, st.inNote, st.acc ++ [padStr ind ++ "finally:".toList]⟩
    else
      match translate_line original with
      | .ok (py, opens) =>
        .ok ⟨st.indent + (if opens then 1 else 0), st.inNote,
             st.acc ++ [padStr st.indent ++ py]⟩
      | .error e => .error (.tale (mkLineErr n e.msg))

/-- The translator loop over the numbered source lines. -/
def toPyGo : Nat → LoopSt → List Str → Except TransErr LoopSt
  | _, st, [] => .ok st
  | n, st, l :: ls =>
    match procLine n st l with
    | .ok st' => toPyGo (n + 1) st' ls
    | .error e => .error e

/-- The initial translator state. -/
def initSt : LoopSt := ⟨0, false, []⟩

/-- `TaleInterpreter.to_python`: translate a whole program, joining the
emitted lines with newlines. -/
def to_python (code : Str) : Except TransErr Str :=
  (toPyGo 1 initSt (splitLines code)).map (fun st => joinWith ['\n'] st.acc)

/- ### The sandboxed executor and result shaping (`run_tale_code`) -/

/-- The set of module top segments accepted by the import hook. -/
def allowed_imports : List Str :=
  ["math".toList, "random".toList, "datetime".toList, "json".toList,
   "csv".toList, "os".toList, "sys".toList]

/-- The import hook `safe_import` installed by `_build_safe_builtins`:
reject any module whose top dotted segment is not allow-listed; otherwise
defer to the host `__import__` (modelled as success of the hook itself). -/
def safe_import (name : Str) : Except Str Unit :=
  if name.takeWhile (· ≠ '.') ∈ allowed_imports then .ok ()
  else .error ("Import not allowed: ".toList ++ name)

/-- A value installed in the execution environment by `run_tale_code`. -/
inductive GVal where
  | builtinsTable
  | mainName
  | inputProv
  | printFn
  | moduleV (name : Str)
  | helperFn (name : Str)
deriving Repr, DecidableEq

/-- The `safe_globals` mapping built by `run_tale_code` (source lines
977-995), in source order. -/
def safe_globals : List (Str × GVal) :=
  [("__builtins__".toList, .builtinsTable),
   ("__name__".toList, .mainName),
   ("input_provider".toList, .inputProv),
   ("print".toList, .printFn),
   ("math".toList, .moduleV "math".toList),
   ("random".toList, .moduleV "random".toList),
   ("datetime".toList, .moduleV "datetime".toList),
   ("json".toList, .moduleV "json".toList),
   ("csv".toList, .moduleV "csv".toList),
   ("os".toList, .moduleV "os".toList),
   ("sys".toList, .moduleV "sys".toList),
   ("read_json".toList, .helperFn "read_json".toList),
   ("write_json".toList, .helperFn "write_json".toList),
   ("read_csv".toList, .helperFn "read_csv".toList),
   ("write_csv".toList, .helperFn "write_csv".toList),
   ("_open_file".toList, .helperFn "_open_file".toList),
   ("_add_to".toList, .helperFn "_add_to".toList)]

/-- Outcome of executing a translated program. -/
inductive ExecOut where
  | okOut (out : Str)
  | errOut (msg : Str)
  | unmodelled
deriving Repr, DecidableEq

/-- Executor model for the translated program: only `import` statements and
blank lines are interpreted (an `import` raises through the hook exactly
when the hook rejects it, and prints nothing otherwise); a program
containing any other statement is out of the modelled subset and yields
`unmodelled`, about which only the result fields `translated` and `tale`
are asserted by the theorems below. -/
def execLines (env : List (Str × GVal)) : List Str → ExecOut
  | [] => .okOut []
  | ln :: ls =>
    if ln = [] then execLines env ls
    else if sw "import ".toList ln then
      match safe_import (pyStrip (ln.drop 7)) with
      | .ok _ => execLines env ls
      | .error m => .errOut m
    else .unmodelled

/-- The structured result of `run_tale_code`/`analyze_tale_code`:
absent dict keys are `none`. -/
structure RunResult where
  ok : Bool
  output : Option Str
  error : Option Str
  suggestedFix : Option Str
  translated : Option Str
  tale : Str
deriving Repr, DecidableEq

/-- `suggestedFix` for a `TaleSyntaxError` during translation. -/
def fixTaleMsg : Str :=
  "I could not understand the TALE syntax; check if/else/end, assignments, and helpers.".toList

/-- `suggestedFix` for a non-`TaleSyntaxError` translation failure. -/
def fixInfraMsg : Str :=
  "Ensure TALE lines follow the documented patterns.".toList

/-- `suggestedFix` for a generic runtime failure. -/
def fixRuntimeMsg : Str :=
  "Check the translated Python to see what went wrong.".toList

/-- Shape an execution outcome into the structured result (success and the
generic runtime-failure branch of the source; the specialised `NameError` /
`InputExhausted` branches are not reachable in the modelled statement
subset and are therefore not shaped separately). -/
def shapeExec (code py : Str) : ExecOut → RunResult
  | .okOut out => ⟨true, some out, none, none, some py, code⟩
  | .errOut m => ⟨false, none, some m, some fixRuntimeMsg, some py, code⟩
  | .unmodelled => ⟨true, none, none, none, some py, code⟩

/-- `run_tale_code`: translate, then execute under the sandbox built from
`safe_globals`, shaping failures as structured results.  The generic
runtime branch carries `str(exc)` and the runtime suggested fix. -/
def run_tale_code (code : Str) (_inputs : List Str) : RunResult :=
  match to_python code with
  | .error (.tale e) =>
    ⟨false, none, some e, some fixTaleMsg, none, code⟩
  | .error (.infra m) =>
    ⟨false, none, some ("I could not understand: ".toList ++ m), some fixInfraMsg, none, code⟩
  | .ok py => shapeExec code py (execLines safe_globals (splitLines py))

/-- Whether `run_tale_code` reaches the execution phase at all: the source
calls `exec` only after `to_python` returns normally. -/
def run_executed (code : Str) : Bool :=
  match to_python code with
  | .ok _ => true
  | .error _ => false

/-- A diagnostic record `{line, message}` returned by the analyzer. -/
structure Diagnostic where
  line : Option Nat
  message : Str
deriving Repr, DecidableEq

/-- The result of `analyze_tale_code`. -/
structure AnalyzeResult where
  ok : Bool
  diagnostics : List Diagnostic
deriving Repr, DecidableEq

/-- `analyze_tale_code`: translate only; on a `TaleSyntaxError` report one
diagnostic whose line is parsed from the `Line N:` prefix, on any other
failure report an unknown-error diagnostic with no line. -/
def analyze_tale_code (code : Str) : AnalyzeResult :=
  match to_python code with
  | .ok _ => ⟨true, []⟩
  | .error (.tale m) => ⟨false, [⟨diagLineOf m, m⟩]⟩
  | .error (.infra m) => ⟨false, [⟨none, "Unknown error: ".toList ++ m⟩]⟩

/-- The `say` split pipeline exactly as the specification's `say <args>`
clause describes it: the payload is always split by commas outside quoted
regions, with the top-level `+` fallback when the comma split is trivial,
and each validated piece becomes a `print` argument.  This definition
follows the specification's words and is compared against the code's `say`
branch, which additionally passes a payload that starts with `"""` through
whole without any splitting. -/
def say_line_as_specified (payload line : Str) : Except TransErr (Str × Bool) :=
  let sa := split_args payload
  let args :=
    if sa.length = 1 then
      let cp := split_concat_args payload
      if 1 < cp.length ∧ cp.any looks_like_string then cp else sa
    else sa
  do
    let parts ← args.mapM (fun part => do
      let e ← transform_expr (pyStrip part)
      validate_expr e line
      pure e)
    .ok ("print(".toList ++ joinWith ", ".toList parts ++ [')'], false)

/- ## Theorems -/

/- ### Claim C1: input typing -/

theorem takeWhile_of_append (p : Char → Bool) (a b : Str) (c : Char)
    (ha : ∀ x ∈ a, p x) (hc : ¬ p c) : (a ++ c :: b).takeWhile p = a := by
  induction a with
  | nil => simp [List.takeWhile, hc]
  | cons x xs ih =>
    simp only [List.cons_append, List.takeWhile]
    rw [ha x (by simp)]
    simp [ih (fun y hy => ha y (by simp [hy]))]

/-- Dropping the length of the `takeWhile` prefix is `dropWhile`. -/
theorem drop_takeWhile_len (p : Char → Bool) : ∀ body : Str,
    body.drop (body.takeWhile p).length = body.dropWhile p
  | [] => rfl
  | c :: rest => by
    by_cases h : p c
    · simp [List.takeWhile, List.dropWhile, h, drop_takeWhile_len p rest]
    · simp [List.takeWhile, List.dropWhile, h]

/-- Characterisation of the unsigned float body. -/
theorem floatBodyOk_iff (body : Str) :
    floatBodyOk body = true ↔
      ∃ a b, (∀ c ∈ a, Char.isDigit c) ∧ (∀ c ∈ b, Char.isDigit c) ∧
        (a ≠ ([] : Str) ∨ b ≠ ([] : Str)) ∧ body = a ++ '.' :: b := by
  constructor
  · intro h
    unfold floatBodyOk at h
    rw [drop_takeWhile_len] at h
    rcases hdrop : body.dropWhile Char.isDigit with _ | ⟨d, b⟩ <;> rw [hdrop] at h
    · simp at h
    · simp only [decide_eq_true_eq, Bool.and_eq_true, decide_not, List.all_eq_true,
        Bool.or_eq_true, Bool.not_eq_true', decide_eq_false_iff_not] at h
      obtain ⟨hd, hb, hne⟩ := h
      subst hd
      refine ⟨body.takeWhile Char.isDigit, b, ?_, hb, ?_, ?_⟩
      · exact fun c hc => List.mem_takeWhile_imp hc
      · rcases hne with h2 | h2
        · exact Or.inl h2
        · exact Or.inr h2
      · conv_lhs =>
          rw [← List.takeWhile_append_dropWhile (p := Char.isDigit) (l := body)]
        rw [hdrop]
  · rintro ⟨a, b, ha, hb, hne, rfl⟩
    have htake : (a ++ '.' :: b).takeWhile Char.isDigit = a :=
      takeWhile_of_append _ _ _ _ ha (by decide)
    unfold floatBodyOk
    rw [drop_takeWhile_len, htake]
    have hdw : (a ++ '.' :: b).dropWhile Char.isDigit = '.' :: b := by
      have := congrArg (List.drop a.length) (List.takeWhile_append_dropWhile
        (p := Char.isDigit) (l := a ++ '.' :: b))
      rw [htake] at this
      calc (a ++ '.' :: b).dropWhile Char.isDigit
          = (a ++ (a ++ '.' :: b).dropWhile Char.isDigit).drop a.length := by
            rw [List.drop_left]
        _ = '.' :: b := by rw [this, List.drop_left]
    rw [hdw]
    simp only [decide_eq_true_eq, Bool.and_eq_true, List.all_eq_true, decide_not,
      Bool.or_eq_true, Bool.not_eq_true', decide_eq_false_iff_not]
    refine ⟨trivial, hb, ?_⟩
    rcases hne with h | h
    · exact Or.inl h
    · exact Or.inr h

/-- The integer-literal scanner agrees with the declarative reading of the
regex `[+-]?\d+`. -/
theorem matchIntLit_iff (l : Str) : matchIntLit l = true ↔ IntShape l := by
  constructor
  · intro h
    simp only [matchIntLit, Bool.and_eq_true, decide_not, Bool.not_eq_true',
      decide_eq_false_iff_not, List.all_eq_true, decide_eq_true_eq] at h
    cases l with
    | nil => simp [dropSign] at h
    | cons c rest =>
      by_cases hc : c = '+' ∨ c = '-'
      · rw [show dropSign (c :: rest) = rest by simp [dropSign, hc]] at h
        refine ⟨[c], rest, ?_, h.1, h.2, rfl⟩
        rcases hc with hc | hc <;> simp [hc]
      · rw [show dropSign (c :: rest) = c :: rest by simp [dropSign, hc]] at h
        exact ⟨[], c :: rest, Or.inl rfl, h.1, h.2, rfl⟩
  · rintro ⟨sign, ds, hsign, hne, hds, rfl⟩
    simp only [matchIntLit, Bool.and_eq_true, decide_not, Bool.not_eq_true',
      decide_eq_false_iff_not, List.all_eq_true, decide_eq_true_eq]
    rcases hsign with h | h | h <;> subst h
    · cases ds with
      | nil => exact absurd rfl hne
      | cons d ds' =>
        have hd := hds d (by simp)
        have hnotsign : ¬ (d = '+' ∨ d = '-') := by
          rintro (h | h) <;> subst h <;> simp [Char.isDigit] at hd
        rw [show dropSign ([] ++ d :: ds') = d :: ds' by simp [dropSign, hnotsign]]
        exact ⟨by simp, hds⟩
    · rw [show dropSign (['+'] ++ ds) = ds by simp [dropSign]]
      exact ⟨hne, hds⟩
    · rw [show dropSign (['-'] ++ ds) = ds by simp [dropSign]]
      exact ⟨hne, hds⟩

/-- The float-literal scanner agrees with the declarative reading of the
regex `[+-]?(\d+\.\d*|\d*\.\d+)`. -/
theorem matchFloatLit_iff (l : Str) : matchFloatLit l = true ↔ FloatShape l := by
  unfold matchFloatLit
  constructor
  · intro h
    cases l with
    | nil => simp [dropSign, floatBodyOk] at h
    | cons c rest =>
      by_cases hc : c = '+' ∨ c = '-'
      · rw [show dropSign (c :: rest) = rest by simp [dropSign, hc]] at h
        obtain ⟨a, b, ha, hb, hne, heq⟩ := (floatBodyOk_iff rest).mp h
        refine ⟨[c], a, b, ?_, ha, hb, hne, by rw [heq]; simp⟩
        rcases hc with hc | hc <;> simp [hc]
      · rw [show dropSign (c :: rest) = c :: rest by simp [dropSign, hc]] at h
        obtain ⟨a, b, ha, hb, hne, heq⟩ := (floatBodyOk_iff (c :: rest)).mp h
        exact ⟨[], a, b, Or.inl rfl, ha, hb, hne, by rw [heq]; simp⟩
  · rintro ⟨sign, a, b, hsign, ha, hb, hne, rfl⟩
    have hbody : floatBodyOk (a ++ '.' :: b) = true :=
      (floatBodyOk_iff _).mpr ⟨a, b, ha, hb, hne, rfl⟩
    rcases hsign with h | h | h <;> subst h
    · cases a with
      | nil =>
        rcases b with _ | ⟨d, b'⟩
        · simp at hne
        · rw [show dropSign ([] ++ [] ++ '.' :: d :: b') = '.' :: d :: b' by
            simp [dropSign]]
          exact hbody
      | cons d a' =>
        have hd := ha d (by simp)
        have hnotsign : ¬ (d = '+' ∨ d = '-') := by
          rintro (h | h) <;> subst h <;> simp [Char.isDigit] at hd
        rw [show dropSign ([] ++ (d :: a') ++ '.' :: b) = (d :: a') ++ '.' :: b by
          simp [dropSign, hnotsign]]
        exact hbody
    · rw [show dropSign (['+'] ++ a ++ '.' :: b) = a ++ '.' :: b by simp [dropSign]]
      exact hbody
    · rw [show dropSign (['-'] ++ a ++ '.' :: b) = a ++ '.' :: b by simp [dropSign]]
      exact hbody

/-- Claim C1: for every run of a TALE program, each consumption from the
input tape by `ask` returns the integer value of the raw string when it
fully matches `[+-]?\d+`, else the float value when it fully matches
`[+-]?(\d+\.\d*|\d*\.\d+)`, else the raw string itself; and any consumption
past the end of the tape fails with `InputExhausted`. -/
theorem claim_C1_input_typing (inputs : List Str) (idx : Nat) :
    (∀ h : idx < inputs.length,
      (IntShape (inputs.get ⟨idx, h⟩) →
        input_provider inputs idx = .ok (.intV (parseIntLit (inputs.get ⟨idx, h⟩)))) ∧
      (¬ IntShape (inputs.get ⟨idx, h⟩) → FloatShape (inputs.get ⟨idx, h⟩) →
        input_provider inputs idx = .ok (.floatV (inputs.get ⟨idx, h⟩))) ∧
      (¬ IntShape (inputs.get ⟨idx, h⟩) → ¬ FloatShape (inputs.get ⟨idx, h⟩) →
        input_provider inputs idx = .ok (.strV (inputs.get ⟨idx, h⟩)))) ∧
    (inputs.length ≤ idx →
      input_provider inputs idx = .error (.exhausted inputExhaustedMsg)) := by
  constructor
  · intro h
    refine ⟨fun hi => ?_, fun hni hf => ?_, fun hni hnf => ?_⟩
    · have h0 : matchIntLit (inputs.get ⟨idx, h⟩) = true := (matchIntLit_iff _).mpr hi
      rw [List.get_eq_getElem] at h0
      simp [input_provider, h, h0]
    · have h1 : matchIntLit (inputs.get ⟨idx, h⟩) = false := by
        by_contra hx
        exact hni ((matchIntLit_iff _).mp (by simpa using hx))
      have h2 : matchFloatLit (inputs.get ⟨idx, h⟩) = true := (matchFloatLit_iff _).mpr hf
      rw [List.get_eq_getElem] at h1 h2
      simp [input_provider, h, h1, h2]
    · have h1 : matchIntLit (inputs.get ⟨idx, h⟩) = false := by
        by_contra hx
        exact hni ((matchIntLit_iff _).mp (by simpa using hx))
      have h2 : matchFloatLit (inputs.get ⟨idx, h⟩) = false := by
        by_contra hx
        exact hnf ((matchFloatLit_iff _).mp (by simpa using hx))
      rw [List.get_eq_getElem] at h1 h2
      simp [input_provider, h, h1, h2]
  · intro h
    have : ¬ idx < inputs.length := Nat.not_lt.mpr h
    simp [input_provider, this]

theorem claim_C1_input_typing_witness :
    input_provider ["4".toList, "2.5".toList, "hey".toList] 0 = .ok (.intV 4) ∧
    input_provider ["4".toList, "2.5".toList, "hey".toList] 1 =
      .ok (.floatV "2.5".toList) ∧
    input_provider ["4".toList, "2.5".toList, "hey".toList] 2 =
      .ok (.strV "hey".toList) ∧
    input_provider ["4".toList, "2.5".toList, "hey".toList] 3 =
      .error (.exhausted inputExhaustedMsg) := by
  have hints : ¬ IntShape ("2.5".toList) := fun h =>
    absurd ((matchIntLit_iff _).mpr h) (by decide)
  have hints2 : ¬ IntShape ("hey".toList) := fun h =>
    absurd ((matchIntLit_iff _).mpr h) (by decide)
  have hflt : ¬ FloatShape ("hey".toList) := fun h =>
    absurd ((matchFloatLit_iff _).mpr h) (by decide)
  refine ⟨?_, ?_, ?_, ?_⟩
  · exact ((claim_C1_input_typing _ 0).1 (by decide)).1
      ⟨[], ['4'], Or.inl rfl, by decide, by decide, rfl⟩
  · exact ((claim_C1_input_typing _ 1).1 (by decide)).2.1 hints
      ⟨[], ['2'], ['5'], Or.inl rfl, by decide, by decide, by decide, rfl⟩
  · exact ((claim_C1_input_typing _ 2).1 (by decide)).2.2 hints2 hflt
  · exact (claim_C1_input_typing _ 3).2 (by decide)

/- ### Claim C3: the indent counter never goes negative -/

set_option maxHeartbeats 2000000 in
theorem procLine_indent_nonneg (n : Nat) (st : LoopSt) (raw : Str) (st' : LoopSt)
    (h : 0 ≤ st.indent) (heq : procLine n st raw = .ok st') : 0 ≤ st'.indent := by
  have hmax : (0:Int) ≤ max (st.indent - 1) 0 := le_max_right _ _
  simp only [procLine] at heq
  split_ifs at heq
  all_goals repeat' split at heq
  all_goals cases heq
  all_goals try dsimp only
  all_goals try exact h
  all_goals try omega

set_option maxHeartbeats 1000000 in
theorem procLine_end_noop (n : Nat) (st : LoopSt) (raw : Str)
    (hnote : st.inNote = false) (hlow : pyLower (pyStrip raw) = "end".toList)
    (hind : st.indent = 0) : procLine n st raw = .ok st := by
  obtain ⟨ind, note, acc⟩ := st
  simp only at hnote hind
  subst hnote hind
  rcases hs : pyStrip raw with _ | ⟨a, s1⟩
  · rw [hs] at hlow; simp [pyLower] at hlow
  · rw [hs] at hlow
    have ha : toLowerCh a = 'e' := by
      have := congrArg (List.headD · ' ') hlow
      simpa [pyLower] using this
    have hnh : sw ['#'] (a :: s1) = false := by
      rcases hx : sw ['#'] (a :: s1) with _ | _
      · rfl
      · have hha : a = '#' := by
          have := hx
          simp [sw, List.isPrefixOf] at this
          exact this.symm
        rw [hha] at ha
        exact absurd ha (by decide)
    simp only [procLine, hs, hlow, hnh]
    simp only [Bool.false_eq_true, if_false, List.cons_ne_nil, false_or, if_neg]
    norm_num
    intro hx
    exact absurd hx (by decide)

/-- Claim C3: for every input code, the structural indent counter maintained
during translation is never negative: every translator-loop step started at
a non-negative indent produces a non-negative indent (so, by induction from
the initial state with indent `0`, the counter is non-negative after every
processed line), and a line reading `end` encountered when the indent is
`0` leaves the whole state unchanged (a clamped no-op). -/
theorem claim_C3_indent_nonneg :
    (∀ (n : Nat) (st : LoopSt) (raw : Str) (st' : LoopSt),
      0 ≤ st.indent → procLine n st raw = .ok st' → 0 ≤ st'.indent) ∧
    (∀ (n : Nat) (st : LoopSt) (raw : Str),
      st.inNote = false → pyLower (pyStrip raw) = "end".toList → st.indent = 0 →
      procLine n st raw = .ok st) :=
  ⟨procLine_indent_nonneg, procLine_end_noop⟩

theorem claim_C3_indent_nonneg_witness :
    ((0:Int) ≤ (⟨1, false, ["if x:".toList]⟩ : LoopSt).indent) ∧
    procLine 2 ⟨0, false, []⟩ "end".toList = .ok ⟨0, false, []⟩ :=
  ⟨claim_C3_indent_nonneg.1 1 ⟨0, false, []⟩ "if x".toList ⟨1, false, ["if x:".toList]⟩
      (by decide) (by decide),
   claim_C3_indent_nonneg.2 2 ⟨0, false, []⟩ "end".toList rfl (by decide) rfl⟩

/- ### Claim C4: translation errors short-circuit execution -/

/-- Claim C4: for every code and inputs, when translation raises a
translation error (`TaleSyntaxError`), `run` returns `ok:false` with the
error message, the fixed suggested fix, `translated:null` and the original
code; no output is produced, and the execution phase (the only consumer of
the input tape) is never entered, so the tape is not consumed; the error is
returned as a result, never thrown. -/
theorem claim_C4_translation_error_shape (code : Str) (inputs : List Str) (e : Str)
    (h : to_python code = .error (.tale e)) :
    run_tale_code code inputs = ⟨false, none, some e, some fixTaleMsg, none, code⟩ ∧
    run_executed code = false := by
  constructor
  · simp only [run_tale_code, h]
  · simp only [run_executed, h]

theorem claim_C4_translation_error_shape_witness :
    run_tale_code "catch 1x".toList ["5".toList] =
      ⟨false, none, some ("I could not understand: catch 1x".toList),
       some fixTaleMsg, none, "catch 1x".toList⟩ ∧
    run_executed "catch 1x".toList = false :=
  claim_C4_translation_error_shape "catch 1x".toList ["5".toList]
    ("I could not understand: catch 1x".toList) (by decide)

/- ### Claim C6: analyze is translate-only -/

/-- Claim C6: for every code, `analyze(C).ok` is true exactly when
`run(C, []).translated` is not null; on analyze success the diagnostics
list is empty, and on a `TaleSyntaxError` translation failure analyze
returns exactly one diagnostic whose line field is the integer parsed from
the `Line N:` prefix of the message when present and null otherwise. -/
theorem claim_C6_analyze_translate_only (code : Str) :
    ((analyze_tale_code code).ok = true ↔ (run_tale_code code []).translated ≠ none) ∧
    ((analyze_tale_code code).ok = true → (analyze_tale_code code).diagnostics = []) ∧
    (∀ m, to_python code = .error (.tale m) →
      (analyze_tale_code code).diagnostics = [⟨diagLineOf m, m⟩]) := by
  refine ⟨?_, ?_, ?_⟩
  · cases h : to_python code with
    | ok py =>
      cases hexec : execLines safe_globals (splitLines py) <;>
        simp [analyze_tale_code, run_tale_code, shapeExec, h, hexec]
    | error e =>
      cases e <;> simp [analyze_tale_code, run_tale_code, h]
  · intro hok
    cases h : to_python code with
    | ok py => simp [analyze_tale_code, h]
    | error e => cases e <;> simp [analyze_tale_code, h] at hok
  · intro m hm
    simp [analyze_tale_code, hm]

theorem claim_C6_analyze_translate_only_witness :
    ((analyze_tale_code "say \"hello\"".toList).ok = true ↔
      (run_tale_code "say \"hello\"".toList []).translated ≠ none) ∧
    (analyze_tale_code "say \"hello\"".toList).diagnostics = [] ∧
    (analyze_tale_code "x is 1\nsay )".toList).diagnostics =
      [⟨some 2, "Line 2: I could not understand: say )".toList⟩] := by
  refine ⟨(claim_C6_analyze_translate_only _).1,
    (claim_C6_analyze_translate_only _).2.1 (by decide), ?_⟩
  have := (claim_C6_analyze_translate_only ("x is 1\nsay )".toList)).2.2
    ("Line 2: I could not understand: say )".toList) (by decide)
  rw [this]
  decide

/- ### Claim C10: module names pre-installed in the execution environment -/

theorem dropWhile_dropWhile (p : Char → Bool) (l : Str) :
    (l.dropWhile p).dropWhile p = l.dropWhile p := by
  induction l with
  | nil => rfl
  | cons c rest ih =>
    by_cases h : p c
    · simp [List.dropWhile, h, ih]
    · simp [List.dropWhile, h]

theorem dropWhile_eq_self_of_prefix (p : Char → Bool) (x z : Str)
    (hpre : x <+: z) (hz : z.dropWhile p = z) : x.dropWhile p = x := by
  cases x with
  | nil => rfl
  | cons c rest =>
    cases z with
    | nil => simp at hpre
    | cons d zs =>
      obtain ⟨t, ht⟩ := hpre
      have hcd : c = d := by
        have := congrArg (List.headD · ' ') ht
        simpa using this
      subst hcd
      by_cases h : p c
      · rw [List.dropWhile_cons_of_pos h] at hz
        have := congrArg List.length hz
        simp at this
        have hle := (List.dropWhile_suffix (l := zs) p).length_le
        omega
      · simp [List.dropWhile, h]

theorem pyStrip_idem (l : Str) : pyStrip (pyStrip l) = pyStrip l := by
  unfold pyStrip
  set A := l.dropWhile isPyWs with hA
  have hAfree : A.dropWhile isPyWs = A := dropWhile_dropWhile _ _
  set B := A.reverse.dropWhile isPyWs with hB
  have hpre : B.reverse <+: A := by
    simpa using (List.dropWhile_suffix (l := A.reverse) isPyWs).reverse
  have h1 : B.reverse.dropWhile isPyWs = B.reverse :=
    dropWhile_eq_self_of_prefix _ _ _ hpre hAfree
  rw [h1, List.reverse_reverse]
  rw [show List.dropWhile isPyWs B = B from dropWhile_dropWhile _ _]

/-- A string-literal expression is returned stripped, for any fuel. -/
theorem transformF_string_lit (k : Nat) (s : Str) (h : looks_like_string s = true) :
    transformF (k + 1) s = .ok (pyStrip s) := by
  have h2 : looks_like_string (pyStrip s) = true := by
    unfold looks_like_string at h ⊢
    rw [pyStrip_idem]
    exact h
  unfold transformF
  simp only [h2, if_true]

/-- Claim C9 counterexample: the rewriter's output for `lambda a -> a` is
`lambda a: a`, and rewriting that output again does not return it
unchanged (dict-key normalisation quotes the parameter), so the rewriter is
not idempotent on its own outputs. -/
theorem claim_C9_counterexample :
    transform_expr "lambda a -> a".toList = .ok "lambda a: a".toList ∧
    transform_expr "lambda a: a".toList ≠ .ok "lambda a: a".toList ∧
    transform_expr "lambda a: a".toList = .ok "lambda \"a\": a".toList := by
  refine ⟨by decide, by decide, by decide⟩

/-- Claim C9, amended: the rewriter is deterministic (equal inputs give
equal outputs — it is a pure function of its argument), but it is *not*
idempotent on all of its outputs; outputs that are plain string literals
are fixed points. -/
theorem claim_C9_amended_determinism (s t : Str) :
    (s = t → transform_expr s = transform_expr t) ∧
    (looks_like_string s = true →
      ∃ v, transform_expr s = .ok v ∧ transform_expr v = .ok v) := by
  refine ⟨fun h => by rw [h], fun h => ?_⟩
  refine ⟨pyStrip s, ?_, ?_⟩
  · exact transformF_string_lit (2 * s.length + 63) s h
  · have hls : looks_like_string (pyStrip s) = true := by
      unfold looks_like_string at h ⊢
      rw [pyStrip_idem]
      exact h
    have := transformF_string_lit (2 * (pyStrip s).length + 63) (pyStrip s) hls
    unfold transform_expr
    rw [this, pyStrip_idem]

theorem claim_C9_amended_determinism_witness :
    (transform_expr "upper of x".toList = transform_expr "upper of x".toList) ∧
    ∃ v, transform_expr "\"hi\"".toList = .ok v ∧ transform_expr v = .ok v :=
  ⟨(claim_C9_amended_determinism "upper of x".toList "upper of x".toList).1 rfl,
   (claim_C9_amended_determinism "\"hi\"".toList "\"hi\"".toList).2 (by decide)⟩

/- ### Claim C5: error-line fidelity -/

/-- The failure produced by the `elif`/`catch` marker branches of the
translator loop on a given raw line, when its condition or name handling
fails (these failures are raised outside the `Line N:` wrapper). -/
def elifCatchFailure (raw : Str) : Option TransErr :=
  let stripped := pyStrip raw
  let lowered := pyLower stripped
  if sw "elif ".toList lowered then
    match transform_expr (pyStrip (stripped.drop 5)) with
    | .error e => some e
    | .ok c =>
      match validate_expr c raw with
      | .error e => some e
      | .ok _ => none
  else if sw "catch ".toList lowered then
    let errName0 := pyStrip (stripped.drop 6)
    let errName := if errName0 = [] then "error".toList else errName0
    match validate_name errName raw with
    | .error e => some e
    | .ok _ => none
  else none

set_option maxHeartbeats 2000000 in
theorem procLine_error (n : Nat) (st : LoopSt) (raw : Str) (e : TransErr)
    (h : procLine n st raw = .error e) :
    (∃ err, translate_line raw = .error err ∧ e = .tale (mkLineErr n err.msg)) ∨
      elifCatchFailure raw = some e := by
  simp only [procLine] at h
  split_ifs at h with h1 h2 h3 h4 h5 h6 h7 h8
  all_goals repeat' split at h
  all_goals cases h
  all_goals simp only [elifCatchFailure]
  all_goals first
    | (left; exact ⟨_, by assumption, rfl⟩)
    | (right; simp only [*]; simp; done)
    | (right; simp only [*]; split <;> simp_all)

theorem toPyGo_error : ∀ (lines : List Str) (n : Nat) (st : LoopSt) (e : TransErr),
    toPyGo n st lines = .error e →
    ∃ k raw, lines.get? k = some raw ∧
      ((∃ err, translate_line raw = .error err ∧ e = .tale (mkLineErr (n + k) err.msg)) ∨
        elifCatchFailure raw = some e)
  | [], n, st, e, h => by simp [toPyGo] at h
  | l :: ls, n, st, e, h => by
    unfold toPyGo at h
    rcases hp : procLine n st l with e' | st' <;> rw [hp] at h
    · cases h
      rcases procLine_error n st l e hp with ⟨err, herr, hmsg⟩ | hec
      · exact ⟨0, l, rfl, Or.inl ⟨err, herr, by simpa using hmsg⟩⟩
      · exact ⟨0, l, rfl, Or.inr hec⟩
    · obtain ⟨k, raw, hget, hcase⟩ := toPyGo_error ls (n + 1) st' e h
      refine ⟨k + 1, raw, by simpa using hget, ?_⟩
      rcases hcase with ⟨err, herr, hmsg⟩ | hec
      · refine Or.inl ⟨err, herr, ?_⟩
        rw [hmsg]
        have hnk : n + 1 + k = n + (k + 1) := by omega
        rw [hnk]
      · exact Or.inr hec

/-- Claim C5 counterexample: the program `catch 1x` fails translation with
the message `I could not understand: catch 1x`, which carries no `Line N:`
prefix at all — errors arising from `catch` names (and `elif` conditions)
are not wrapped, contrary to the claim. -/
theorem claim_C5_counterexample :
    to_python "catch 1x".toList =
      .error (.tale ("I could not understand: catch 1x".toList)) ∧
    sw "Line ".toList ("I could not understand: catch 1x".toList) = false := by
  exact ⟨by decide, by decide⟩

/-- Claim C5, amended: when translation fails, either the failure was
raised by the per-line translator on the line at 1-based position `k + 1`
of the original source (blank and comment lines counted) and the message is
exactly `Line (k+1): <inner>`, or the failure arose while handling the
condition of an `elif` marker or the name of a `catch` marker, in which
case the raw message is propagated without any line prefix. -/
theorem claim_C5_amended_line_fidelity (code : Str) (e : TransErr)
    (h : to_python code = .error e) :
    ∃ k raw, (splitLines code).get? k = some raw ∧
      ((∃ err, translate_line raw = .error err ∧
          e = .tale (mkLineErr (k + 1) err.msg)) ∨
        elifCatchFailure raw = some e) := by
  have h' : toPyGo 1 initSt (splitLines code) = .error e := by
    unfold to_python at h
    rcases hg : toPyGo 1 initSt (splitLines code) with e' | st' <;> rw [hg] at h
    · cases h; rfl
    · cases h
  obtain ⟨k, raw, hget, hcase⟩ := toPyGo_error _ 1 initSt e h'
  refine ⟨k, raw, hget, ?_⟩
  rcases hcase with ⟨err, herr, hmsg⟩ | hec
  · refine Or.inl ⟨err, herr, ?_⟩
    rw [hmsg]
    have h1k : 1 + k = k + 1 := by omega
    rw [h1k]
  · exact Or.inr hec

theorem claim_C5_amended_line_fidelity_witness :
    ∃ k raw, (splitLines "x is 1\nsay )".toList).get? k = some raw ∧
      ((∃ err, translate_line raw = .error err ∧
          (TransErr.tale ("Line 2: I could not understand: say )".toList)) =
            .tale (mkLineErr (k + 1) err.msg)) ∨
        elifCatchFailure raw =
          some (.tale ("Line 2: I could not understand: say )".toList))) :=
  claim_C5_amended_line_fidelity "x is 1\nsay )".toList
    (.tale ("Line 2: I could not understand: say )".toList)) (by decide)

/- ### Claim C2: the import sandbox -/

/-- Characters of a dotted module path. -/
def isModChar (c : Char) : Bool := c.isAlpha ∨ c.isDigit ∨ c = '_' ∨ c = '.'

theorem isModChar_not_ws (c : Char) (h : isModChar c = true) : isPyWs c = false := by
  rcases hw : isPyWs c with _ | _
  · rfl
  · exfalso
    simp only [isPyWs, Bool.or_eq_true, decide_eq_true_eq] at hw
    rcases hw with rfl | rfl | rfl | rfl | rfl | rfl <;> simp [isModChar] at h

theorem pyStrip_eq_self (l : Str)
    (hh : ∀ c, l.head? = some c → isPyWs c = false)
    (hl : ∀ c, l.getLast? = some c → isPyWs c = false) : pyStrip l = l := by
  unfold pyStrip
  have h1 : l.dropWhile isPyWs = l := by
    cases l with
    | nil => rfl
    | cons c rest =>
      have := hh c rfl
      rw [List.dropWhile_cons_of_neg (by simp [this])]
  rw [h1]
  have h2 : l.reverse.dropWhile isPyWs = l.reverse := by
    cases hr : l.reverse with
    | nil => rfl
    | cons c rest =>
      have hc : l.getLast? = some c := by
        rw [← List.head?_reverse, hr]
        rfl
      have := hl c hc
      rw [List.dropWhile_cons_of_neg (by simp [this])]
  rw [h2, List.reverse_reverse]

theorem char_ofNat_toNat (n : Nat) (h : n < 55296) : (Char.ofNat n).toNat = n := by
  simp [Char.ofNat, Char.toNat, Nat.isValidChar, h, Char.ofNatAux, UInt32.ofNat', UInt32.toNat]

theorem toLowerCh_eq_space (d : Char) (h : toLowerCh d = ' ') : d = ' ' := by
  unfold toLowerCh at h
  split_ifs at h with hr
  · exfalso
    have h65 : 65 ≤ d.toNat := hr.1
    have h90 : d.toNat ≤ 90 := hr.2
    have h2 := congrArg Char.toNat h
    rw [char_ofNat_toNat (d.toNat + 32) (by omega)] at h2
    rw [show (' ' : Char).toNat = 32 from rfl] at h2
    omega
  · exact h

theorem isPrefixOf_false_of_absent (p l : Str) (x : Char) (hx : x ∈ p)
    (h : ∀ c ∈ l, c ≠ x) : List.isPrefixOf p l = false := by
  rcases hb : List.isPrefixOf p l with _ | _
  · rfl
  · exact absurd rfl (h x ((List.isPrefixOf_iff_prefix.mp hb).subset hx))

theorem isSubstr_false_of_head_absent (a : Char) (p l : Str)
    (h : ∀ c ∈ l, c ≠ a) : isSubstr (a :: p) l = false := by
  induction l with
  | nil => rfl
  | cons c rest ih =>
    show (List.isPrefixOf (a :: p) (c :: rest) || isSubstr (a :: p) rest) = false
    have h1 : List.isPrefixOf (a :: p) (c :: rest) = false := by
      show ((a == c) && _) = false
      have : a ≠ c := fun hh => (h c (by simp)) hh.symm
      simp [this]
    rw [h1, ih (fun c hc => h c (by simp [hc]))]
    rfl

set_option maxHeartbeats 4000000 in
theorem translate_line_import (M : Str) (hM : M ≠ []) (hmod : ∀ c ∈ M, isModChar c = true) :
    translate_line ("import ".toList ++ M) = .ok ("import ".toList ++ M, false) := by
  have hws : ∀ c ∈ M, isPyWs c = false := fun c hc => isModChar_not_ws c (hmod c hc)
  have hstrip : pyStrip ("import ".toList ++ M) = "import ".toList ++ M := by
    apply pyStrip_eq_self
    · intro c hc
      cases M with
      | nil => exact absurd rfl hM
      | cons a r =>
        simp at hc
        subst hc
        decide
    · intro c hc
      rw [List.getLast?_append_of_ne_nil _ hM] at hc
      exact hws c (List.mem_of_mem_getLast? hc)
  have hlowConst : pyLower "import ".toList = "import ".toList := by decide
  have hlowApp : pyLower ("import ".toList ++ M) = "import ".toList ++ pyLower M := by
    unfold pyLower at hlowConst ⊢
    rw [List.map_append, hlowConst]
  have hspace : ∀ c ∈ pyLower M, c ≠ ' ' := by
    intro c hc heq
    subst heq
    obtain ⟨d, hd, hdl⟩ := List.mem_map.mp hc
    have := toLowerCh_eq_space d hdl
    subst this
    have := hws _ hd
    simp [isPyWs] at this
  have hIsTail : isSubstr " is ".toList (pyLower M) = false :=
    isSubstr_false_of_head_absent _ _ _ hspace
  have hIsPre : List.isPrefixOf ['i', 's', ' '] (pyLower M) = false :=
    isPrefixOf_false_of_absent _ _ ' ' (by decide) hspace
  have hIsFull : isSubstr " is ".toList
      ('i' :: 'm' :: 'p' :: 'o' :: 'r' :: 't' :: ' ' :: pyLower M) = false := by
    simp [isSubstr, List.isPrefixOf, hIsPre]
    exact hIsTail
  simp only [translate_line]
  rw [hstrip, hlowApp]
  simp only [List.cons_append, List.nil_append]
  simp [sw, List.isPrefixOf, hIsFull]

theorem splitLines_go_single (l : List Char) (acc : Str) (h : ∀ c ∈ l, c ≠ '\n') :
    splitLines.go l acc = [acc.reverse ++ l] := by
  induction l generalizing acc with
  | nil => simp [splitLines.go]
  | cons c rest ih =>
    have hc : c ≠ '\n' := h c (by simp)
    rw [splitLines.go]
    simp only [hc, if_false]
    rw [ih (c :: acc) (fun d hd => h d (by simp [hd]))]
    simp

theorem splitLines_single (l : Str) (hne : l ≠ []) (h : ∀ c ∈ l, c ≠ '\n') :
    splitLines l = [l] := by
  unfold splitLines
  rw [if_neg hne, splitLines_go_single l [] h]
  rfl

set_option maxHeartbeats 1000000 in
theorem procLine_plain (n : Nat) (st : LoopSt) (raw py : Str) (opens : Bool)
    (hnote : st.inNote = false)
    (hne : pyStrip raw ≠ [])
    (hnh : sw ['#'] (pyStrip raw) = false)
    (hnnote : sw ("note ".toList ++ noteDelim) (pyLower (pyStrip raw)) = false)
    (hnend : pyLower (pyStrip raw) ≠ "end".toList)
    (hnelif : sw "elif ".toList (pyLower (pyStrip raw)) = false)
    (hnelse : pyLower (pyStrip raw) ≠ "else".toList)
    (hncatch : sw "catch ".toList (pyLower (pyStrip raw)) = false)
    (hnfin : pyLower (pyStrip raw) ≠ "finally".toList)
    (htl : translate_line raw = .ok (py, opens)) :
    procLine n st raw =
      .ok ⟨st.indent + (if opens then 1 else 0), st.inNote,
           st.acc ++ [padStr st.indent ++ py]⟩ := by
  simp only [procLine, hnote, hne, hnh, hnnote, hnend, hnelif, hnelse, hncatch, hnfin, htl,
    Bool.false_eq_true, if_false, false_or, or_self, if_neg, not_false_eq_true]

theorem toPyGo_cons (n : Nat) (st st' : LoopSt) (l : Str) (ls : List Str)
    (h : procLine n st l = .ok st') :
    toPyGo n st (l :: ls) = toPyGo (n + 1) st' ls := by
  conv_lhs => simp only [toPyGo]
  rw [h]

set_option maxHeartbeats 1000000 in
theorem to_python_import (M : Str) (hM : M ≠ []) (hmod : ∀ c ∈ M, isModChar c = true) :
    to_python ("import ".toList ++ M) = .ok ("import ".toList ++ M) := by
  have hws : ∀ c ∈ M, isPyWs c = false := fun c hc => isModChar_not_ws c (hmod c hc)
  have hnl : ∀ c ∈ ("import ".toList ++ M), c ≠ '\n' := by
    intro c hc
    rcases List.mem_append.mp hc with h | h
    · intro he; subst he; revert h; decide
    · intro he; subst he; have := hws _ h; simp [isPyWs] at this
  have hstrip : pyStrip ("import ".toList ++ M) = "import ".toList ++ M := by
    apply pyStrip_eq_self
    · intro c hc
      cases M with
      | nil => exact absurd rfl hM
      | cons a r => simp at hc; subst hc; decide
    · intro c hc
      rw [List.getLast?_append_of_ne_nil _ hM] at hc
      exact hws c (List.mem_of_mem_getLast? hc)
  have hlowConst : pyLower "import ".toList = "import ".toList := by decide
  have hlowApp : pyLower ("import ".toList ++ M) = "import ".toList ++ pyLower M := by
    unfold pyLower at hlowConst ⊢
    rw [List.map_append, hlowConst]
  have hstrip' : pyStrip ('i' :: 'm' :: 'p' :: 'o' :: 'r' :: 't' :: ' ' :: M) =
      'i' :: 'm' :: 'p' :: 'o' :: 'r' :: 't' :: ' ' :: M := hstrip
  have hlow' : pyLower ('i' :: 'm' :: 'p' :: 'o' :: 'r' :: 't' :: ' ' :: M) =
      'i' :: 'm' :: 'p' :: 'o' :: 'r' :: 't' :: ' ' :: pyLower M := hlowApp
  have htl : translate_line ('i' :: 'm' :: 'p' :: 'o' :: 'r' :: 't' :: ' ' :: M) =
      .ok (('i' :: 'm' :: 'p' :: 'o' :: 'r' :: 't' :: ' ' :: M), false) :=
    translate_line_import M hM hmod
  have hproc : procLine 1 initSt ('i' :: 'm' :: 'p' :: 'o' :: 'r' :: 't' :: ' ' :: M) =
      .ok ⟨0, false, [('i' :: 'm' :: 'p' :: 'o' :: 'r' :: 't' :: ' ' :: M)]⟩ := by
    have := procLine_plain 1 initSt
      ('i' :: 'm' :: 'p' :: 'o' :: 'r' :: 't' :: ' ' :: M)
      ('i' :: 'm' :: 'p' :: 'o' :: 'r' :: 't' :: ' ' :: M) false
      rfl
      (by rw [hstrip']; simp)
      (by rw [hstrip']; simp [sw, List.isPrefixOf])
      (by rw [hstrip', hlow']; simp [sw, List.isPrefixOf, noteDelim])
      (by rw [hstrip', hlow']; simp)
      (by rw [hstrip', hlow']; simp [sw, List.isPrefixOf])
      (by rw [hstrip', hlow']; simp)
      (by rw [hstrip', hlow']; simp [sw, List.isPrefixOf])
      (by rw [hstrip', hlow']; simp)
      htl
    rw [this]
    simp [initSt, padStr]
  have hsplit : splitLines ('i' :: 'm' :: 'p' :: 'o' :: 'r' :: 't' :: ' ' :: M) =
      [('i' :: 'm' :: 'p' :: 'o' :: 'r' :: 't' :: ' ' :: M)] :=
    splitLines_single _ (by simp) hnl
  show to_python ('i' :: 'm' :: 'p' :: 'o' :: 'r' :: 't' :: ' ' :: M) =
      .ok ('i' :: 'm' :: 'p' :: 'o' :: 'r' :: 't' :: ' ' :: M)
  unfold to_python
  rw [hsplit, toPyGo_cons 1 initSt _ _ _ hproc]
  simp [toPyGo, joinWith, Except.map, List.intercalate, List.intersperse]

theorem execLines_import_reject (M : Str) (hM : M ≠ [])
    (hws : ∀ c ∈ M, isPyWs c = false)
    (hnot : M.takeWhile (· ≠ '.') ∉ allowed_imports) :
    execLines safe_globals [("import ".toList ++ M)] =
      .errOut ("Import not allowed: ".toList ++ M) := by
  have hdrop : ("import ".toList ++ M).drop 7 = M := by simp
  have hstripM : pyStrip M = M := by
    apply pyStrip_eq_self
    · intro c hc
      cases M with
      | nil => exact absurd rfl hM
      | cons a r =>
        simp at hc; subst hc; exact hws a (by simp)
    · intro c hc
      exact hws c (List.mem_of_mem_getLast? hc)
  have hne : ¬("import ".toList ++ M = []) := by simp
  have hsw : sw "import ".toList ("import ".toList ++ M) = true := by
    simp [sw, List.isPrefixOf]
  simp only [execLines, hne, if_false, hsw, if_true, hdrop, hstripM, safe_import,
    hnot, if_neg, not_false_eq_true]

/-- Claim C2: for any well-formed module name `M` whose top dotted segment is
not allow-listed, running the TALE program `import M` yields a result with
`ok = false`; and the import hook accepts any module whose top segment is in
the allow list `{math, random, datetime, json, csv, os, sys}`. -/
theorem claim_C2_import_sandbox (M : Str) (inputs : List Str)
    (hM : M ≠ []) (hmod : ∀ c ∈ M, isModChar c = true) :
    (M.takeWhile (· ≠ '.') ∉ allowed_imports →
      (run_tale_code ("import ".toList ++ M) inputs).ok = false) ∧
    (M.takeWhile (· ≠ '.') ∈ allowed_imports → safe_import M = .ok ()) := by
  constructor
  · intro hnot
    have hws : ∀ c ∈ M, isPyWs c = false := fun c hc => isModChar_not_ws c (hmod c hc)
    have hnl : ∀ c ∈ ("import ".toList ++ M), c ≠ '\n' := by
      intro c hc
      rcases List.mem_append.mp hc with h | h
      · intro he; subst he; revert h; decide
      · intro he; subst he; have := hws _ h; simp [isPyWs] at this
    have hpy := to_python_import M hM hmod
    have hsplit : splitLines ("import ".toList ++ M) = [("import ".toList ++ M)] :=
      splitLines_single _ (by simp) hnl
    have hexec := execLines_import_reject M hM hws hnot
    simp only [run_tale_code, hpy, hsplit, hexec, shapeExec]
  · intro hmem
    unfold safe_import
    rw [if_pos hmem]

/-- Witness for claim C2 at the rejected module `socket` and the accepted
module `math`. -/
theorem claim_C2_import_sandbox_witness :
    (run_tale_code ("import ".toList ++ "socket".toList) []).ok = false ∧
    safe_import "math".toList = .ok () :=
  ⟨(claim_C2_import_sandbox "socket".toList [] (by decide) (by decide)).1 (by decide),
   (claim_C2_import_sandbox "math".toList [] (by decide) (by decide)).2 (by decide)⟩

theorem sw_space_false (p : Str) :
    ∀ X : Str, ' ' ∈ p → (∀ c ∈ X, isPyWs c = false) → sw p X = false := by
  induction p with
  | nil => intro X hp _; cases hp
  | cons a p' ih =>
    intro X hp hX
    cases X with
    | nil => simp [sw, List.isPrefixOf]
    | cons b X' =>
      rcases List.mem_cons.mp hp with ha | ha
      · have hb : isPyWs b = false := hX b (by simp)
        have hne : a ≠ b := by
          intro h; subst h; rw [← ha] at hb; simp [isPyWs] at hb
        simp [sw, List.isPrefixOf, hne]
      · have hrec := ih X' ha (fun c hc => hX c (List.mem_cons_of_mem _ hc))
        simp only [sw, List.isPrefixOf] at hrec ⊢
        simp [hrec]

theorem wsRun_cons_nonws (c : Char) (u : Str) (h : isPyWs c = false) :
    wsRun (c :: u) = 0 := by
  simp [wsRun, List.takeWhile, h]

theorem tailGroup_space (sub : Str) (hne : sub ≠ [])
    (hsh : ∀ c, sub.head? = some c → isPyWs c = false) :
    tailGroup (' ' :: sub) = some sub := by
  cases sub with
  | nil => exact absurd rfl hne
  | cons b s' =>
    have hb : isPyWs b = false := hsh b rfl
    have hr : wsRun (' ' :: b :: s') = 1 := by
      simp [wsRun, List.takeWhile, hb, show isPyWs ' ' = true by decide]
    unfold tailGroup
    rw [hr]
    simp

theorem tailGroup_none_of_head (u : Str) (c : Char)
    (h : u.head? = some c) (hc : isPyWs c = false) : tailGroup u = none := by
  cases u with
  | nil => simp at h
  | cons d u' =>
    have hd : d = c := by simpa using h
    subst hd
    have hr : wsRun (d :: u') = 0 := wsRun_cons_nonws d u' hc
    unfold tailGroup
    rw [hr]
    simp

theorem lazyGroupGo_split (sub : Str) (hsubne : sub ≠ [])
    (hsh : ∀ c, sub.head? = some c → isPyWs c = false) :
    ∀ (X acc : Str), X ≠ [] → (∀ c ∈ X, isPyWs c = false) →
      lazyGroupGo acc (X ++ ' ' :: sub) = some (acc.reverse ++ X, sub) := by
  intro X
  induction X with
  | nil => intro acc h _; exact absurd rfl h
  | cons a X' ih =>
    intro acc _ hws
    cases X' with
    | nil =>
      have ht : tailGroup (' ' :: sub) = some sub := tailGroup_space sub hsubne hsh
      simp only [List.cons_append, List.nil_append]
      rw [lazyGroupGo.eq_def]
      simp only [ht]
      simp
    | cons b X'' =>
      have hb : isPyWs b = false := hws b (by simp)
      have ht : tailGroup ((b :: X'') ++ ' ' :: sub) = none :=
        tailGroup_none_of_head _ b (by simp) hb
      rw [List.cons_append, lazyGroupGo.eq_def]
      simp only [ht]
      rw [ih (a :: acc) (by simp) (fun c hc => hws c (List.mem_cons_of_mem _ hc))]
      simp

theorem twoGroupMatch_split (X sub : Str) (hXne : X ≠ [])
    (hXws : ∀ c ∈ X, isPyWs c = false) (hsubne : sub ≠ [])
    (hsh : ∀ c, sub.head? = some c → isPyWs c = false) :
    twoGroupMatch (' ' :: (X ++ ' ' :: sub)) = some (X, sub) := by
  have hr : wsRun (' ' :: (X ++ ' ' :: sub)) = 1 := by
    cases X with
    | nil => exact absurd rfl hXne
    | cons a X' =>
      have ha : isPyWs a = false := hXws a (by simp)
      simp [wsRun, List.takeWhile, ha, show isPyWs ' ' = true by decide]
  unfold twoGroupMatch
  rw [hr]
  unfold twoGroupMatch.go
  simp only [List.drop_succ_cons, List.drop_zero]
  rw [lazyGroupGo_split sub hsubne hsh X [] hXne hXws]
  simp

theorem pyStrip_eq_self_wsfree (X : Str) (hX : X ≠ [])
    (hws : ∀ c ∈ X, isPyWs c = false) : pyStrip X = X := by
  apply pyStrip_eq_self
  · intro c hc
    exact hws c (List.mem_of_mem_head? hc)
  · intro c hc
    exact hws c (List.mem_of_mem_getLast? hc)

theorem looks_like_string_false (X : Str) (hX : X ≠ [])
    (hws : ∀ c ∈ X, isPyWs c = false)
    (hq : ∀ c, X.head? = some c → c ≠ '"' ∧ c ≠ '\'') :
    looks_like_string X = false := by
  have hstrip : pyStrip X = X := pyStrip_eq_self_wsfree X hX hws
  unfold looks_like_string
  rw [hstrip]
  cases X with
  | nil => exact absurd rfl hX
  | cons a r =>
    have ha := hq a rfl
    have h1 : ('"' == a) = false := by
      simp only [beq_eq_false_iff_ne]
      exact Ne.symm ha.1
    simp [List.isPrefixOf, h1, ha.1, ha.2]

theorem identThenWs_false (X : Str)
    (hws : ∀ c ∈ X, isPyWs c = false) : identThenWs X = false := by
  cases X with
  | nil => rfl
  | cons a r =>
    unfold identThenWs
    cases hisd : isIdentStart a
    · simp [hisd]
    · simp only [hisd, if_true]
      cases hdrop : r.drop (r.takeWhile isWordChar).length with
      | nil => simp
      | cons d rest =>
        have hd : d ∈ r := List.drop_subset _ r (by rw [hdrop]; simp)
        simp [hws d (List.mem_cons_of_mem a hd)]

set_option maxHeartbeats 2000000 in
theorem transformF_wsfree (g : Nat) (hg : 1 ≤ g) (X : Str) (hX : X ≠ [])
    (hws : ∀ c ∈ X, isPyWs c = false)
    (hq : ∀ c, X.head? = some c → c ≠ '"' ∧ c ≠ '\'') :
    transformF g X = .ok (postNorm X) := by
  obtain ⟨f, rfl⟩ : ∃ f, g = f + 1 := ⟨g - 1, by omega⟩
  have hstrip : pyStrip X = X := pyStrip_eq_self_wsfree X hX hws
  have hlls : looks_like_string X = false := looks_like_string_false X hX hws hq
  have hitw : identThenWs X = false := identThenWs_false X hws
  have hg00 : sw "type of ".toList X = false := sw_space_false _ X (by decide) hws
  have hg01 : sw "id of ".toList X = false := sw_space_false _ X (by decide) hws
  have hg02 : sw "upper ".toList X = false := sw_space_false _ X (by decide) hws
  have hg03 : sw "lower ".toList X = false := sw_space_false _ X (by decide) hws
  have hg04 : sw "title ".toList X = false := sw_space_false _ X (by decide) hws
  have hg05 : sw "strip ".toList X = false := sw_space_false _ X (by decide) hws
  have hg06 : sw "isalpha ".toList X = false := sw_space_false _ X (by decide) hws
  have hg07 : sw "isdigit ".toList X = false := sw_space_false _ X (by decide) hws
  have hg08 : sw "isalnum ".toList X = false := sw_space_false _ X (by decide) hws
  have hg09 : sw "replace ".toList X = false := sw_space_false _ X (by decide) hws
  have hg10 : sw "split ".toList X = false := sw_space_false _ X (by decide) hws
  have hg11 : sw "join ".toList X = false := sw_space_false _ X (by decide) hws
  have hg12 : sw "find ".toList X = false := sw_space_false _ X (by decide) hws
  have hg13 : sw "count ".toList X = false := sw_space_false _ X (by decide) hws
  have hg14 : sw "starts ".toList X = false := sw_space_false _ X (by decide) hws
  have hg15 : sw "ends ".toList X = false := sw_space_false _ X (by decide) hws
  have hg16 : sw "map ".toList X = false := sw_space_false _ X (by decide) hws
  have hg17 : sw "filter ".toList X = false := sw_space_false _ X (by decide) hws
  have hg18 : sw "enumerate ".toList X = false := sw_space_false _ X (by decide) hws
  have hg19 : sw "zip ".toList X = false := sw_space_false _ X (by decide) hws
  have hg20 : sw "next ".toList X = false := sw_space_false _ X (by decide) hws
  have hg21 : sw "call ".toList X = false := sw_space_false _ X (by decide) hws
  have hg22 : sw "get ".toList X = false := sw_space_false _ X (by decide) hws
  have hg23 : sw "len ".toList X = false := sw_space_false _ X (by decide) hws
  have hg24 : sw "sum ".toList X = false := sw_space_false _ X (by decide) hws
  have hg25 : sw "min ".toList X = false := sw_space_false _ X (by decide) hws
  have hg26 : sw "max ".toList X = false := sw_space_false _ X (by decide) hws
  have hg27 : sw "sorted ".toList X = false := sw_space_false _ X (by decide) hws
  have hg28 : sw "any ".toList X = false := sw_space_false _ X (by decide) hws
  have hg29 : sw "all ".toList X = false := sw_space_false _ X (by decide) hws
  have hg30 : sw "union ".toList X = false := sw_space_false _ X (by decide) hws
  have hg31 : sw "intersection ".toList X = false := sw_space_false _ X (by decide) hws
  have hg32 : sw "difference ".toList X = false := sw_space_false _ X (by decide) hws
  have hg33 : sw "subset ".toList X = false := sw_space_false _ X (by decide) hws
  have hg34 : sw "copy ".toList X = false := sw_space_false _ X (by decide) hws
  have hg35 : sw "dict ".toList X = false := sw_space_false _ X (by decide) hws
  have hg36 : sw "json read ".toList X = false := sw_space_false _ X (by decide) hws
  have hg37 : sw "json write ".toList X = false := sw_space_false _ X (by decide) hws
  have hg38 : sw "csv read ".toList X = false := sw_space_false _ X (by decide) hws
  have hg39 : sw "csv write ".toList X = false := sw_space_false _ X (by decide) hws
  have hg40 : sw "read ".toList X = false := sw_space_false _ X (by decide) hws
  have hg41 : sw "lambda ".toList X = false := sw_space_false _ X (by decide) hws
  have hgta : sw "text r\"".toList X = false := sw_space_false _ X (by decide) hws
  have hgtb : sw ("text r".toList ++ [sq]) X = false := sw_space_false _ X (by decide) hws
  simp only [transformF, hstrip, hlls, hitw, hg00, hg01, hg02, hg03, hg04, hg05, hg06, hg07, hg08, hg09, hg10, hg11, hg12, hg13, hg14, hg15, hg16, hg17, hg18, hg19, hg20, hg21, hg22, hg23, hg24, hg25, hg26, hg27, hg28, hg29, hg30, hg31, hg32, hg33, hg34, hg35, hg36, hg37, hg38, hg39, hg40, hg41, hgta, hgtb,
    Bool.false_eq_true, if_false, false_and, false_or, or_self, and_false,
    ite_false, not_false_eq_true]

set_option maxHeartbeats 2000000 in
theorem transformF_count (g : Nat) (hg : 1 ≤ g) (X sub : Str)
    (hXne : X ≠ []) (hsubne : sub ≠ [])
    (hXws : ∀ c ∈ X, isPyWs c = false) (hsubws : ∀ c ∈ sub, isPyWs c = false)
    (hXq : ∀ c, X.head? = some c → c ≠ '"' ∧ c ≠ '\'')
    (hsubq : ∀ c, sub.head? = some c → c ≠ '"' ∧ c ≠ '\'')
    (hXcmp : ∀ c, X.head? = some c → ¬(c = '>' ∨ c = '<' ∨ c = '=')) :
    transformF (g + 1) ("count ".toList ++ (X ++ ' ' :: sub)) =
      .ok ('(' :: postNorm X ++ ").count(".toList ++ postNorm sub ++ [')']) := by
  have hstripX : pyStrip X = X := pyStrip_eq_self_wsfree X hXne hXws
  have hstripS : pyStrip sub = sub := pyStrip_eq_self_wsfree sub hsubne hsubws
  have hbase : transformF g X = .ok (postNorm X) := transformF_wsfree g hg X hXne hXws hXq
  have hsubT : transformF g sub = .ok (postNorm sub) := transformF_wsfree g hg sub hsubne hsubws hsubq
  have hstrip0 : pyStrip ("count ".toList ++ (X ++ ' ' :: sub)) =
      "count ".toList ++ (X ++ ' ' :: sub) := by
    apply pyStrip_eq_self
    · intro c hc
      rw [show ("count ".toList ++ (X ++ ' ' :: sub)).head? = some 'c' from rfl] at hc
      cases hc
      decide
    · intro c hc
      rw [List.getLast?_append_of_ne_nil _ (by simp : X ++ ' ' :: sub ≠ [])] at hc
      rw [List.getLast?_append_of_ne_nil _ (by simp : ' ' :: sub ≠ [])] at hc
      rw [show (' ' :: sub) = [' '] ++ sub from rfl,
        List.getLast?_append_of_ne_nil _ hsubne] at hc
      exact hsubws c (List.mem_of_mem_getLast? hc)
  have hguard : countGuard (' ' :: (X ++ ' ' :: sub)) = false := by
    cases X with
    | nil => exact absurd rfl hXne
    | cons a X' =>
      have ha : isPyWs a = false := hXws a (by simp)
      have hcmp := hXcmp a rfl
      unfold countGuard
      simp [List.dropWhile, List.cons_append, show isPyWs ' ' = true from by decide, ha,
        decide_eq_false_iff_not, hcmp]
  have htwo : twoGroupMatch (' ' :: (X ++ ' ' :: sub)) = some (X, sub) :=
    twoGroupMatch_split X sub hXne hXws hsubne (fun c hc => hsubws c (List.mem_of_mem_head? hc))
  have hstrip0' : pyStrip ('c' :: 'o' :: 'u' :: 'n' :: 't' :: ' ' :: (X ++ ' ' :: sub)) =
      'c' :: 'o' :: 'u' :: 'n' :: 't' :: ' ' :: (X ++ ' ' :: sub) := hstrip0
  simp [transformF, hstrip0', sw, List.isPrefixOf, List.cons_append, List.nil_append,
    List.drop_succ_cons, List.drop_zero, hguard, htwo, hstripX, hstripS, hbase, hsubT,
    looks_like_string]
  rfl

/-- Claim C8 counterexample: `count != 0` has `count` immediately followed by
the comparison operator `!=`, yet the rewriter does not leave it unrewritten:
the guard regex only checks for `>`, `<`, `=`, so the expression is rewritten
to `(!=).count(0)`. -/
theorem claim_C8_counterexample :
    transform_expr "count != 0".toList = .ok "(!=).count(0)".toList ∧
    "(!=).count(0)".toList ≠ "count != 0".toList := by
  constructor
  · decide
  · decide

/-- Claim C8 (amended): for `count X sub` with whitespace-free, unquoted
operands whose base does not begin with a comparison character, the rewriter
produces `(X).count(sub)` (operands passed through the tail normalisation);
and the comparison guard fires only when the first non-space character after
`count` is `>`, `<` or `=` — so `!=` and `==`-style operators beginning with
another character are not excluded. -/
theorem claim_C8_amended_count (X sub : Str)
    (hXne : X ≠ []) (hsubne : sub ≠ [])
    (hXws : ∀ c ∈ X, isPyWs c = false) (hsubws : ∀ c ∈ sub, isPyWs c = false)
    (hXq : ∀ c, X.head? = some c → c ≠ '"' ∧ c ≠ '\'')
    (hsubq : ∀ c, sub.head? = some c → c ≠ '"' ∧ c ≠ '\'')
    (hXcmp : ∀ c, X.head? = some c → ¬(c = '>' ∨ c = '<' ∨ c = '=')) :
    transform_expr ("count ".toList ++ (X ++ ' ' :: sub)) =
      .ok ('(' :: postNorm X ++ ").count(".toList ++ postNorm sub ++ [')']) ∧
    (∀ t c rest, t.dropWhile isPyWs = c :: rest → countGuard t = true →
       c = '>' ∨ c = '<' ∨ c = '=') := by
  constructor
  · unfold transform_expr
    rw [show 2 * ("count ".toList ++ (X ++ ' ' :: sub)).length + 64 =
        (2 * ("count ".toList ++ (X ++ ' ' :: sub)).length + 63) + 1 from rfl]
    exact transformF_count _ (by omega) X sub hXne hsubne hXws hsubws hXq hsubq hXcmp
  · intro t c rest ht hgt
    unfold countGuard at hgt
    rw [ht] at hgt
    simpa using hgt

/-- Witness for the amended claim C8 at `count x 0`, which is rewritten to
`(x).count(0)`. -/
theorem claim_C8_amended_count_witness :
    transform_expr ("count ".toList ++ ("x".toList ++ ' ' :: "0".toList)) =
      .ok ('(' :: postNorm "x".toList ++ ").count(".toList ++ postNorm "0".toList ++ [')']) ∧
    (∀ t c rest, t.dropWhile isPyWs = c :: rest → countGuard t = true →
       c = '>' ∨ c = '<' ∨ c = '=') :=
  claim_C8_amended_count "x".toList "0".toList (by decide) (by decide) (by decide) (by decide)
    (fun c hc => by rw [show ("x".toList : Str).head? = some 'x' from rfl] at hc; cases hc; decide)
    (fun c hc => by rw [show ("0".toList : Str).head? = some '0' from rfl] at hc; cases hc; decide)
    (fun c hc => by rw [show ("x".toList : Str).head? = some 'x' from rfl] at hc; cases hc; decide)

end Tale
